import Mathlib

/-!
Shallow embedding of the dataset-reading layer of the E-D3DGS repository
(`scene/dataset_readers.py`), together with theorems checking the
natural-language specification against it.

Conventions of the embedding:
* Python numbers (COLMAP focal lengths, principal points, clip planes,
  timestamps) are modelled as rationals `ℚ`; quantities that genuinely live in
  `ℝ` (fields of view via `atan`, camera centers via matrix inversion and
  Euclidean norms) are modelled as real numbers.
* Python exceptions (assert failures, KeyError/IndexError, file errors) are
  modelled with `Except String`: a raised exception aborts the whole call and
  is carried as `.error msg`.
* The filesystem is an explicit oracle: `pathExists : String → Bool` stands for
  `os.path.exists`, and `fetchPly : String → Except String BasicPointCloud`
  stands for the PLY loader (which reads a file and may fail).
* Image decoding (PIL) is external to the repository; an image value records
  only the path it was opened from and any resize applied, which is all the
  specification talks about.
-/

namespace EDDGS

/-- An image as produced by the external decoding library: either opened
as-is, or opened and resized to the given pixel dimensions.  (Modelled from
the spec: PIL `Image.open` / `Image.resize` are out-of-scope external
collaborators; only identity of the source path and the resize arguments are
observable in this excerpt.) -/
inductive PImg where
  | opened (path : String)
  | resized (path : String) (w h : ℤ)
deriving DecidableEq

/-- `CameraInfo` NamedTuple from `scene/dataset_readers.py` (one observation of
one physical camera at one timestamp). -/
structure CameraInfo where
  uid : ℕ
  R : Matrix (Fin 3) (Fin 3) ℝ
  T : Fin 3 → ℝ
  FovY : ℝ
  FovX : ℝ
  image : Option PImg
  image_path : String
  image_name : String
  width : ℚ
  height : ℚ
  near : ℚ
  far : ℚ
  timestamp : ℚ
  pose : Option ℕ
  hpdirecitons : Option ℕ
  cxr : ℚ
  cyr : ℚ

/-- Sparse point cloud (`BasicPointCloud` from `utils.graphics_utils`; modelled
from the spec: positions, per-point RGB colors, per-point normals). -/
structure BasicPointCloud where
  points : List (Fin 3 → ℝ)
  colors : List (Fin 3 → ℝ)
  normals : List (Fin 3 → ℝ)

/-- The normalization descriptor returned by `getNerfppNorm`
(`{"translate": ..., "radius": ...}`). -/
structure NerfNorm where
  translate : Fin 3 → ℝ
  radius : ℝ

/-- `SceneInfo` NamedTuple.  The camera-collection type is a parameter because
the COLMAP assemblers store lists of `CameraInfo` while the Hyper assembler
stores the loader's own dataset objects. -/
structure SceneInfo (κ : Type) where
  point_cloud : Option BasicPointCloud
  train_cameras : κ
  test_cameras : κ
  video_cameras : κ
  nerf_normalization : NerfNorm
  ply_path : String

/-- A COLMAP extrinsic record (`cam_extrinsics[key]`): camera id, image name,
orientation quaternion and translation. -/
structure Extr where
  camera_id : ℕ
  name : String
  qvec : Fin 4 → ℝ
  tvec : Fin 3 → ℝ

/-- A COLMAP intrinsic record (`cam_intrinsics[camera_id]`). -/
structure Intr where
  id : ℕ
  model : String
  width : ℕ
  height : ℕ
  params : List ℚ

/-! ### Python-semantics helpers -/

/-- `os.path.join` on POSIX with relative components: intercalates `/`. -/
def pyJoin (parts : List String) : String :=
  String.mk (List.intercalate ['/'] (parts.map String.data))

/-- `f"{j:04d}"` / `"%04d" % j`: decimal, left-padded with zeros to width 4. -/
def pad4 (n : ℕ) : String :=
  let s := Nat.repr n
  String.mk (List.replicate (4 - s.length) '0' ++ s.data)

/-- `s.split('/')`: split a character list at every `/`. -/
def splitSlash : List Char → List (List Char)
  | [] => [[]]
  | c :: cs =>
    if c = '/' then [] :: splitSlash cs
    else
      match splitSlash cs with
      | [] => [[c]]
      | g :: gs => (c :: g) :: gs

/-- `path.split('/')[-1]`: the last `/`-separated component. -/
def lastComponent (s : String) : String := String.mk ((splitSlash s.data).getLastD [])

/-- Python string slicing `s[:n]` for `n ≥ 0`. -/
def pyTake (s : String) (n : ℕ) : String := String.mk (s.data.take n)

/-- Python string slicing `s[:-n]`: drop the last `n` characters (empty when
the string is shorter than `n`). -/
def pyDropRight (s : String) (n : ℕ) : String := String.mk (s.data.take (s.data.length - n))

/-- Python list slicing `l[a:b]` (for `0 ≤ a ≤ b`). -/
def pySlice {α : Type} (l : List α) (a b : ℕ) : List α := (l.drop a).take (b - a)

/-- Python `int()` on a nonnegative float/rational: truncation toward zero,
which agrees with the floor on the nonnegative values used here. -/
def pyint (q : ℚ) : ℤ := ⌊q⌋

/-- Python substring test `pat in s`. -/
def pyIn (pat s : String) : Bool := go pat.data s.data
where
  go (p : List Char) : List Char → Bool
    | [] => p.isEmpty
    | c :: cs => p.isPrefixOf (c :: cs) || go p cs

/-- Python list indexing `l[i]`, raising `IndexError` when out of range. -/
def pget (l : List ℚ) (i : ℕ) : Except String ℚ :=
  match l.get? i with
  | some v => .ok v
  | none => .error "IndexError: list index out of range"

instance {ε α : Type} [DecidableEq ε] [DecidableEq α] : DecidableEq (Except ε α) := fun x y =>
  match x, y with
  | .ok a, .ok b =>
    if h : a = b then .isTrue (by rw [h]) else .isFalse (by simp [h])
  | .error a, .error b =>
    if h : a = b then .isTrue (by rw [h]) else .isFalse (by simp [h])
  | .ok _, .error _ => .isFalse (by simp)
  | .error _, .ok _ => .isFalse (by simp)

/-- The Python `for` loop that builds a list, aborting the whole call at the
first raised exception. -/
def mapE {α β : Type} (f : α → Except String β) : List α → Except String (List β)
  | [] => .ok []
  | x :: xs =>
    match f x with
    | .error e => .error e
    | .ok y =>
      match mapE f xs with
      | .error e => .error e
      | .ok ys => .ok (y :: ys)

/-! ### Spec-modelled external helpers (from `utils.graphics_utils` and
`scene.colmap_loader`, which are not part of this excerpt) -/

/-- Modelled from the spec: `focal2fov` from `utils.graphics_utils` (not under
`src/`): "Field-of-view is derived from focal length and sensor dimension via
the standard `2·atan(dim / (2·focal))` relation". -/
noncomputable def focal2fov (focal dim : ℝ) : ℝ :=
  2 * Real.arctan (dim / (2 * focal))

/-- Modelled from the spec: `qvec2rotmat` from `scene.colmap_loader` (an
external COLMAP parser helper, out of scope per the spec); the standard
quaternion-to-rotation-matrix conversion.  No claim depends on its values. -/
noncomputable def qvec2rotmat (q : Fin 4 → ℝ) : Matrix (Fin 3) (Fin 3) ℝ :=
  Matrix.of fun i j =>
    ![![1 - 2 * (q 2 ^ 2 + q 3 ^ 2), 2 * (q 1 * q 2 - q 0 * q 3), 2 * (q 1 * q 3 + q 0 * q 2)],
      ![2 * (q 1 * q 2 + q 0 * q 3), 1 - 2 * (q 1 ^ 2 + q 3 ^ 2), 2 * (q 2 * q 3 - q 0 * q 1)],
      ![2 * (q 1 * q 3 - q 0 * q 2), 2 * (q 2 * q 3 + q 0 * q 1), 1 - 2 * (q 1 ^ 2 + q 2 ^ 2)]] i j

/-- Modelled from the spec: `getWorld2View2` from `utils.graphics_utils` (not
under `src/`): the 4×4 world-to-camera matrix built from the camera rotation
and translation ("Extrinsics: per-camera rotation and translation placing it
in world space"); rotation block transposed per the caller's convention. -/
noncomputable def getWorld2View2 (R : Matrix (Fin 3) (Fin 3) ℝ) (t : Fin 3 → ℝ) :
    Matrix (Fin 4) (Fin 4) ℝ :=
  Matrix.of fun i j =>
    if hi : (i : ℕ) < 3 then
      if hj : (j : ℕ) < 3 then R.transpose ⟨i, hi⟩ ⟨j, hj⟩
      else t ⟨i, hi⟩
    else if (j : ℕ) = 3 then 1 else 0

/-! ### `getNerfppNorm` -/

/-- The world position of a camera: translation column of the inverted
world-to-camera matrix (`C2W = np.linalg.inv(getWorld2View2(R, T))`,
`C2W[:3, 3:4]`). -/
noncomputable def camCenter (c : CameraInfo) : Fin 3 → ℝ :=
  fun i => (getWorld2View2 c.R c.T)⁻¹ i.castSucc 3

/-- `np.max` over a nonempty list of reals (`0` on the empty list, which is
unreachable from `getNerfppNorm`: `np.hstack`/`np.max` raise earlier there). -/
noncomputable def listMax : List ℝ → ℝ
  | [] => 0
  | x :: xs => xs.foldl max x

/-- The inner `get_center_and_diag(cam_centers)` function of `getNerfppNorm`:
mean of the stacked camera centers (per coordinate) and the maximum Euclidean
distance of a center from that mean. -/
noncomputable def get_center_and_diag (cam_centers : List (Fin 3 → ℝ)) : (Fin 3 → ℝ) × ℝ :=
  let avg_cam_center : Fin 3 → ℝ :=
    fun i => (cam_centers.map (fun p => p i)).sum / (cam_centers.length : ℝ)
  let dist : (Fin 3 → ℝ) → ℝ :=
    fun p => Real.sqrt (∑ i : Fin 3, (p i - avg_cam_center i) ^ 2)
  (avg_cam_center, listMax (cam_centers.map dist))

/-- `getNerfppNorm` from `scene/dataset_readers.py`.  `np.hstack` on an empty
list raises, hence the error case. -/
noncomputable def getNerfppNorm (cam_info : List CameraInfo) : Except String NerfNorm :=
  match cam_info.map camCenter with
  | [] => .error "ValueError: need at least one array to concatenate"
  | c :: cs =>
    let cd := get_center_and_diag (c :: cs)
    .ok { translate := fun i => -(cd.1 i), radius := cd.2 * 1.1 }

/-! ### Per-dataset camera readers -/

/-- The assertion message of the unsupported-intrinsics-model branch. -/
def modelAssertMsg : String :=
  "AssertionError: Colmap camera model not handled: only undistorted datasets (PINHOLE or SIMPLE_PINHOLE cameras) supported!"

/-- The `if intr.model == ... / elif ... / else: assert False` block of
`readColmapCamerasDynerf` (focal length and dimension halved), returning
`(FovY, FovX)`. -/
noncomputable def fovDynerf (intr : Intr) : Except String (ℝ × ℝ) :=
  if intr.model = "SIMPLE_PINHOLE" then
    match pget intr.params 0 with
    | .error e => .error e
    | .ok fx =>
      .ok (focal2fov ((fx : ℝ) / 2) ((intr.height : ℝ) / 2),
           focal2fov ((fx : ℝ) / 2) ((intr.width : ℝ) / 2))
  else if intr.model = "PINHOLE" then
    match pget intr.params 0 with
    | .error e => .error e
    | .ok fx =>
      match pget intr.params 1 with
      | .error e => .error e
      | .ok fy =>
        .ok (focal2fov ((fy : ℝ) / 2) ((intr.height : ℝ) / 2),
             focal2fov ((fx : ℝ) / 2) ((intr.width : ℝ) / 2))
  else .error modelAssertMsg

/-- The corresponding intrinsics block of the two Technicolor readers
(no halving). -/
noncomputable def fovTech (intr : Intr) : Except String (ℝ × ℝ) :=
  if intr.model = "SIMPLE_PINHOLE" then
    match pget intr.params 0 with
    | .error e => .error e
    | .ok fx => .ok (focal2fov (fx : ℝ) (intr.height : ℝ), focal2fov (fx : ℝ) (intr.width : ℝ))
  else if intr.model = "PINHOLE" then
    match pget intr.params 0 with
    | .error e => .error e
    | .ok fx =>
      match pget intr.params 1 with
      | .error e => .error e
      | .ok fy => .ok (focal2fov (fy : ℝ) (intr.height : ℝ), focal2fov (fx : ℝ) (intr.width : ℝ))
  else .error modelAssertMsg

/-- One iteration of the frame loop of `readColmapCamerasDynerf` for frame `j`
(image path under `frames/<j:04d>/<name>`; the first frame opens and resizes
the image and sets `pose`, later frames carry `image=None`). -/
noncomputable def dynerfFrame (pE : String → Bool) (folder : String) (near far : ℚ)
    (startime duration : ℕ) (e : Extr) (intr : Intr) (FovY FovX : ℝ) (width height : ℚ)
    (j : ℕ) : Except String CameraInfo :=
  let image_path := pyJoin [folder, "frames", pad4 j, e.name]
  let image_name := lastComponent image_path
  if pE image_path then
    if j = startime then
      .ok { uid := intr.id, R := (qvec2rotmat e.qvec).transpose, T := e.tvec,
            FovY := FovY, FovX := FovX,
            image := some (PImg.resized image_path (pyint width) (pyint height)),
            image_path := image_path, image_name := image_name,
            width := width, height := height, near := near, far := far,
            timestamp := ((j : ℚ) - (startime : ℚ)) / (duration : ℚ),
            pose := some 1, hpdirecitons := some 1, cxr := 0, cyr := 0 }
    else
      .ok { uid := intr.id, R := (qvec2rotmat e.qvec).transpose, T := e.tvec,
            FovY := FovY, FovX := FovX, image := none,
            image_path := image_path, image_name := image_name,
            width := width, height := height, near := near, far := far,
            timestamp := ((j : ℚ) - (startime : ℚ)) / (duration : ℚ),
            pose := none, hpdirecitons := none, cxr := 0, cyr := 0 }
  else .error ("AssertionError: Image " ++ image_path ++ " does not exist!")

/-- The per-camera body of `readColmapCamerasDynerf`: intrinsics model
handling (with halved dimensions stored) followed by the frame loop over
`range(startime, startime + int(duration))`. -/
noncomputable def dynerfCamera (pE : String → Bool) (folder : String) (near far : ℚ)
    (startime duration : ℕ) (e : Extr) (intr : Intr) : Except String (List CameraInfo) :=
  match fovDynerf intr with
  | .error err => .error err
  | .ok (FovY, FovX) =>
    let height : ℚ := (intr.height : ℚ) / 2
    let width : ℚ := (intr.width : ℚ) / 2
    mapE (dynerfFrame pE folder near far startime duration e intr FovY FovX width height)
      (List.range' startime duration)

/-- Python dict lookup `cam_intrinsics[extr.camera_id]`. -/
def lookupIntr (ci : List Intr) (e : Extr) : Except String Intr :=
  match ci.find? (fun c => c.id == e.camera_id) with
  | some intr => .ok intr
  | none => .error "KeyError"

/-- `readColmapCamerasDynerf`: iterate over the extrinsic records in order,
concatenating every camera's per-frame records; any raised exception aborts
the whole call. -/
noncomputable def readColmapCamerasDynerf (pE : String → Bool) (ce : List Extr)
    (ci : List Intr) (images_folder : String) (near far : ℚ)
    (startime duration : ℕ) : Except String (List CameraInfo) :=
  match mapE (fun e =>
      match lookupIntr ci e with
      | .error err => .error err
      | .ok intr => dynerfCamera pE images_folder near far startime duration e intr) ce with
  | .error err => .error err
  | .ok ls => .ok ls.flatten

/-- One iteration of the frame loop of `readColmapCamerasTechnicolor` (regular,
non-testonly): principal-point ratios from `params[2:4]`, then existence
assert, then the image is opened eagerly for EVERY frame; `pose` is set only
on the first frame. -/
noncomputable def techFrame (pE : String → Bool) (folder : String) (near far : ℚ)
    (startime duration : ℕ) (e : Extr) (intr : Intr) (FovY FovX : ℝ)
    (j : ℕ) : Except String CameraInfo :=
  let image_path := pyJoin [folder, "images/" ++ pyDropRight e.name 4, pad4 j ++ ".png"]
  let image_name := pyJoin [pyDropRight e.name 4, lastComponent image_path]
  match pget intr.params 2 with
  | .error err => .error err
  | .ok p2 =>
    match pget intr.params 3 with
    | .error err => .error err
    | .ok p3 =>
      let cxr := p2 / (intr.width : ℚ) - 1/2
      let cyr := p3 / (intr.height : ℚ) - 1/2
      if pE image_path then
        let image := some (PImg.opened image_path)
        if j = startime then
          .ok { uid := intr.id, R := (qvec2rotmat e.qvec).transpose, T := e.tvec,
                FovY := FovY, FovX := FovX, image := image,
                image_path := image_path, image_name := image_name,
                width := (intr.width : ℚ), height := (intr.height : ℚ),
                near := near, far := far,
                timestamp := ((j : ℚ) - (startime : ℚ)) / (duration : ℚ),
                pose := some 1, hpdirecitons := some 1, cxr := cxr, cyr := cyr }
        else
          .ok { uid := intr.id, R := (qvec2rotmat e.qvec).transpose, T := e.tvec,
                FovY := FovY, FovX := FovX, image := image,
                image_path := image_path, image_name := image_name,
                width := (intr.width : ℚ), height := (intr.height : ℚ),
                near := near, far := far,
                timestamp := ((j : ℚ) - (startime : ℚ)) / (duration : ℚ),
                pose := none, hpdirecitons := none, cxr := cxr, cyr := cyr }
      else .error ("AssertionError: Image " ++ image_path ++ " does not exist!")

/-- One iteration of the frame loop of `readColmapCamerasTechnicolorTestonly`:
as `techFrame`, except the image is opened only when
`image_name == "cam10"` (an equality against the full `"<cam>/<frame>.png"`
name), otherwise `image=None`. -/
noncomputable def techFrameTestonly (pE : String → Bool) (folder : String) (near far : ℚ)
    (startime duration : ℕ) (e : Extr) (intr : Intr) (FovY FovX : ℝ)
    (j : ℕ) : Except String CameraInfo :=
  let image_path := pyJoin [folder, "images/" ++ pyDropRight e.name 4, pad4 j ++ ".png"]
  let image_name := pyJoin [pyDropRight e.name 4, lastComponent image_path]
  match pget intr.params 2 with
  | .error err => .error err
  | .ok p2 =>
    match pget intr.params 3 with
    | .error err => .error err
    | .ok p3 =>
      let cxr := p2 / (intr.width : ℚ) - 1/2
      let cyr := p3 / (intr.height : ℚ) - 1/2
      if pE image_path then
        let image := if image_name = "cam10" then some (PImg.opened image_path) else none
        if j = startime then
          .ok { uid := intr.id, R := (qvec2rotmat e.qvec).transpose, T := e.tvec,
                FovY := FovY, FovX := FovX, image := image,
                image_path := image_path, image_name := image_name,
                width := (intr.width : ℚ), height := (intr.height : ℚ),
                near := near, far := far,
                timestamp := ((j : ℚ) - (startime : ℚ)) / (duration : ℚ),
                pose := some 1, hpdirecitons := some 1, cxr := cxr, cyr := cyr }
        else
          .ok { uid := intr.id, R := (qvec2rotmat e.qvec).transpose, T := e.tvec,
                FovY := FovY, FovX := FovX, image := image,
                image_path := image_path, image_name := image_name,
                width := (intr.width : ℚ), height := (intr.height : ℚ),
                near := near, far := far,
                timestamp := ((j : ℚ) - (startime : ℚ)) / (duration : ℚ),
                pose := none, hpdirecitons := none, cxr := cxr, cyr := cyr }
      else .error ("AssertionError: Image " ++ image_path ++ " does not exist!")

/-- Per-camera body of `readColmapCamerasTechnicolor`. -/
noncomputable def techCamera (pE : String → Bool) (folder : String) (near far : ℚ)
    (startime duration : ℕ) (e : Extr) (intr : Intr) : Except String (List CameraInfo) :=
  match fovTech intr with
  | .error err => .error err
  | .ok (FovY, FovX) =>
    mapE (techFrame pE folder near far startime duration e intr FovY FovX)
      (List.range' startime duration)

/-- Per-camera body of `readColmapCamerasTechnicolorTestonly`. -/
noncomputable def techCameraTestonly (pE : String → Bool) (folder : String) (near far : ℚ)
    (startime duration : ℕ) (e : Extr) (intr : Intr) : Except String (List CameraInfo) :=
  match fovTech intr with
  | .error err => .error err
  | .ok (FovY, FovX) =>
    mapE (techFrameTestonly pE folder near far startime duration e intr FovY FovX)
      (List.range' startime duration)

/-- `readColmapCamerasTechnicolor`. -/
noncomputable def readColmapCamerasTechnicolor (pE : String → Bool) (ce : List Extr)
    (ci : List Intr) (images_folder : String) (near far : ℚ)
    (startime duration : ℕ) : Except String (List CameraInfo) :=
  match mapE (fun e =>
      match lookupIntr ci e with
      | .error err => .error err
      | .ok intr => techCamera pE images_folder near far startime duration e intr) ce with
  | .error err => .error err
  | .ok ls => .ok ls.flatten

/-- `readColmapCamerasTechnicolorTestonly`. -/
noncomputable def readColmapCamerasTechnicolorTestonly (pE : String → Bool) (ce : List Extr)
    (ci : List Intr) (images_folder : String) (near far : ℚ)
    (startime duration : ℕ) : Except String (List CameraInfo) :=
  match mapE (fun e =>
      match lookupIntr ci e with
      | .error err => .error err
      | .ok intr => techCameraTestonly pE images_folder near far startime duration e intr) ce with
  | .error err => .error err
  | .ok ls => .ok ls.flatten

/-! ### Scene assemblers -/

/-- Python string `<`: lexicographic comparison by code point, a strict
prefix being smaller. -/
def strLtAux : List Char → List Char → Bool
  | _, [] => false
  | [], _ :: _ => true
  | a :: as, b :: bs =>
    if a.toNat < b.toNat then true
    else if b.toNat < a.toNat then false
    else strLtAux as bs

/-- Python string `<` on `String`. -/
def strLt (a b : String) : Bool := strLtAux a.data b.data

/-- Insert a record into a name-sorted list, before every entry of equal or
larger name (so that, inserting from the right, earlier-listed records with
equal names stay first, as with Python's stable sort). -/
def insName (c : CameraInfo) : List CameraInfo → List CameraInfo
  | [] => [c]
  | d :: ds => if strLt d.image_name c.image_name then d :: insName c ds else c :: d :: ds

/-- `sorted(cam_infos, key=lambda x: x.image_name)`: Python's `sorted` is a
stable ascending sort by the key; modelled as stable insertion sort (the same
function on lists). -/
def sortByName : List CameraInfo → List CameraInfo
  | [] => []
  | c :: cs => insName c (sortByName cs)

/-- The nondecreasing-name relation (`a` may precede `b` in name order). -/
def nameLe (a b : CameraInfo) : Prop := strLt b.image_name a.image_name = false

/-- The Dynerf test split: the contiguous slices
`cam_infos[n*duration : (n+1)*duration]` for `n` in the fixed
`test_cams = [0]` list, concatenated. -/
def dynerfTest (duration : ℕ) (cam_infos : List CameraInfo) : List CameraInfo :=
  let test_cams : List ℕ := [0]
  let slices := test_cams.map (fun n => (n * duration, (n + 1) * duration))
  (slices.map (fun s => pySlice cam_infos s.1 s.2)).flatten

/-- The Dynerf train split: every entry whose index is not covered by a test
slice. -/
def dynerfTrain (duration : ℕ) (cam_infos : List CameraInfo) : List CameraInfo :=
  let test_cams : List ℕ := [0]
  let slices := test_cams.map (fun n => (n * duration, (n + 1) * duration))
  ((cam_infos.enum.filter
      (fun p => !(slices.any (fun s => s.1 ≤ p.1 && p.1 < s.2)))).map Prod.snd)

/-- `readColmapSceneInfoDynerf` from the camera-reading stage on (the COLMAP
file parsing that produces `cam_extrinsics` / `cam_intrinsics` is an external
parser; it is supplied parsed).  `near = 0.01`, `far = 100`. -/
noncomputable def readColmapSceneInfoDynerf (pE : String → Bool)
    (fetchPly : String → Except String BasicPointCloud) (path : String)
    (ce : List Extr) (ci : List Intr) (duration : ℕ) (testonly : Bool) :
    Except String (SceneInfo (List CameraInfo)) :=
  match readColmapCamerasDynerf pE ce ci path (1/100) 100 0 duration with
  | .error e => .error e
  | .ok cam_infos_unsorted =>
    let cam_infos := sortByName cam_infos_unsorted
    let test_cam_infos := dynerfTest duration cam_infos
    let train_cam_infos := dynerfTrain duration cam_infos
    match getNerfppNorm train_cam_infos with
    | .error e => .error e
    | .ok nerf_normalization =>
      let ply_path := pyJoin [path, "sparse/0/points3D.ply"]
      let pcd := if testonly then none else
        match fetchPly ply_path with
        | .ok p => some p
        | .error _ => none
      .ok { point_cloud := pcd, train_cameras := train_cam_infos,
            test_cameras := test_cam_infos, video_cameras := test_cam_infos,
            nerf_normalization := nerf_normalization, ply_path := ply_path }

/-- The Technicolor train split: names not containing `"cam10"`. -/
def techTrain (cam_infos : List CameraInfo) : List CameraInfo :=
  cam_infos.filter (fun c => !(pyIn "cam10" c.image_name))

/-- The Technicolor test split: names containing `"cam10"`. -/
def techTest (cam_infos : List CameraInfo) : List CameraInfo :=
  cam_infos.filter (fun c => pyIn "cam10" c.image_name)

/-- The `uniquecheck` / `sanitycheck` accumulation loop: distinct 5-character
name prefixes in first-appearance order. -/
def collectTake5Aux (acc : List String) : List CameraInfo → List String
  | [] => acc
  | c :: cs =>
    collectTake5Aux
      (if acc.contains (pyTake c.image_name 5) then acc else acc ++ [pyTake c.image_name 5]) cs

/-- Distinct 5-character name prefixes of a camera list, in order. -/
def collectTake5 (l : List CameraInfo) : List String := collectTake5Aux [] l

/-- `readColmapSceneInfoTechnicolor` from the camera-reading stage on:
reader selection by `testonly`, name sort, the `"cam10"` split, the two
assertion loops, normalization, and the guarded point-cloud load. -/
noncomputable def readColmapSceneInfoTechnicolor (pE : String → Bool)
    (fetchPly : String → Except String BasicPointCloud) (path : String)
    (ce : List Extr) (ci : List Intr) (duration : ℕ) (testonly : Bool) :
    Except String (SceneInfo (List CameraInfo)) :=
  match (if testonly then readColmapCamerasTechnicolorTestonly pE ce ci path (1/100) 100 0 duration
         else readColmapCamerasTechnicolor pE ce ci path (1/100) 100 0 duration) with
  | .error e => .error e
  | .ok cam_infos_unsorted =>
    let cam_infos := sortByName cam_infos_unsorted
    let train_cam_infos := techTrain cam_infos
    let test_cam_infos := techTest cam_infos
    let uniquecheck := collectTake5 test_cam_infos
    if uniquecheck.length = 1 then
      let sanitycheck := collectTake5 train_cam_infos
      if uniquecheck.all (fun t => !(sanitycheck.contains t)) then
        match getNerfppNorm train_cam_infos with
        | .error e => .error e
        | .ok nerf_normalization =>
          let ply_path := pyJoin [path, "points3D_downsample.ply"]
          let pcd := if testonly then none else
            match fetchPly ply_path with
            | .ok p => some p
            | .error _ => none
          .ok { point_cloud := pcd, train_cameras := train_cam_infos,
                test_cameras := test_cam_infos, video_cameras := [],
                nerf_normalization := nerf_normalization, ply_path := ply_path }
      else .error "AssertionError"
    else .error "AssertionError"

/-- The object returned by the external `Load_hyper_data` loader (modelled from
the spec: "delegates to an external loader returning already-split train/test
camera collections with associated near/far/start/duration"; its internals are
out of scope, so the object is opaque data plus the fields read here). -/
structure HyperData where
  split : String
  near : ℚ
  far : ℚ
  startime : ℕ
  duration : ℕ

/-- `readHyperDataInfos`.  `load` stands for `Load_hyper_data` (applied to the
split name) and `fmt` for `format_hyper_data`, both external collaborators
supplied as oracles; the point-cloud load is NOT guarded here. -/
noncomputable def readHyperDataInfos (load : String → HyperData)
    (fmt : HyperData → String → ℚ → ℚ → ℕ → ℕ → List CameraInfo)
    (fetchPly : String → Except String BasicPointCloud)
    (datadir : String) : Except String (SceneInfo HyperData) :=
  let train_cam_infos := load "train"
  let test_cam_infos := load "test"
  let train_cam := fmt train_cam_infos "train" train_cam_infos.near train_cam_infos.far
    train_cam_infos.startime train_cam_infos.duration
  let video_cam_infos := { test_cam_infos with split := "video" }
  match getNerfppNorm train_cam with
  | .error e => .error e
  | .ok nerf_normalization =>
    let ply_path := pyJoin [datadir, "points3D_downsample.ply"]
    match fetchPly ply_path with
    | .error e => .error e
    | .ok pcd =>
      let pcd := { pcd with points := pcd.points }
      .ok { point_cloud := some pcd, train_cameras := train_cam_infos,
            test_cameras := test_cam_infos, video_cameras := video_cam_infos,
            nerf_normalization := nerf_normalization, ply_path := ply_path }

/-! ### Helper lemmas about the embedding's building blocks -/

theorem mapE_ok_mem {α β : Type} {f : α → Except String β} :
    ∀ {xs : List α} {ys : List β}, mapE f xs = .ok ys →
      ∀ y ∈ ys, ∃ x ∈ xs, f x = .ok y := by
  intro xs
  induction xs with
  | nil => intro ys h y hy; simp [mapE] at h; subst h; simp at hy
  | cons x xs ih =>
    intro ys h y hy
    simp only [mapE] at h
    cases hfx : f x with
    | error e => rw [hfx] at h; simp at h
    | ok b =>
      rw [hfx] at h
      cases hrest : mapE f xs with
      | error e => rw [hrest] at h; simp at h
      | ok bs =>
        rw [hrest] at h
        simp only [Except.ok.injEq] at h
        subst h
        rcases List.mem_cons.mp hy with hy | hy
        · exact ⟨x, List.mem_cons_self x xs, hy ▸ hfx⟩
        · obtain ⟨x', hx', hfx'⟩ := ih hrest y hy
          exact ⟨x', List.mem_cons_of_mem _ hx', hfx'⟩

theorem mapE_ok_length {α β : Type} {f : α → Except String β} :
    ∀ {xs : List α} {ys : List β}, mapE f xs = .ok ys → ys.length = xs.length := by
  intro xs
  induction xs with
  | nil => intro ys h; simp [mapE] at h; subst h; rfl
  | cons x xs ih =>
    intro ys h
    simp only [mapE] at h
    cases hfx : f x with
    | error e => rw [hfx] at h; simp at h
    | ok b =>
      rw [hfx] at h
      cases hrest : mapE f xs with
      | error e => rw [hrest] at h; simp at h
      | ok bs =>
        rw [hrest] at h
        simp only [Except.ok.injEq] at h
        subst h
        simp [ih hrest]

theorem strLtAux_nil_right (c : List Char) : strLtAux c [] = false := by
  cases c <;> rfl

/-- Asymmetry of the Python string order. -/
theorem strLtAux_asymm : ∀ {a b : List Char}, strLtAux a b = true → strLtAux b a = false := by
  intro a
  induction a with
  | nil =>
    intro b h
    exact strLtAux_nil_right b
  | cons x xs ih =>
    intro b h
    cases b with
    | nil => rw [strLtAux_nil_right] at h; cases h
    | cons y ys =>
      simp only [strLtAux] at h ⊢
      by_cases h1 : x.toNat < y.toNat
      · simp only [show ¬ y.toNat < x.toNat by omega, if_false,
          show ¬ x.toNat < y.toNat → False from fun hc => hc h1]
        simp [h1]
      · by_cases h2 : y.toNat < x.toNat
        · simp [h1, h2] at h
        · simp only [h1, h2, if_false] at h ⊢
          exact ih h

/-- Transitivity of the nonstrict Python string order
(`strLtAux b a = false` reads "`a ≤ b`"). -/
theorem strLtAux_neg_trans : ∀ {a b c : List Char},
    strLtAux b a = false → strLtAux c b = false → strLtAux c a = false := by
  intro a
  induction a with
  | nil =>
    intro b c hba hcb
    exact strLtAux_nil_right c
  | cons x xs ih =>
    intro b c hba hcb
    cases b with
    | nil => rw [show strLtAux [] (x :: xs) = true from rfl] at hba; cases hba
    | cons y ys =>
      cases c with
      | nil => rw [show strLtAux [] (y :: ys) = true from rfl] at hcb; cases hcb
      | cons z zs =>
        simp only [strLtAux] at hba hcb ⊢
        by_cases h1 : y.toNat < x.toNat
        · simp [h1] at hba
        · by_cases h2 : z.toNat < y.toNat
          · simp [h2] at hcb
          · by_cases h3 : z.toNat < x.toNat
            · omega
            · simp only [h3, if_false]
              by_cases h4 : x.toNat < z.toNat
              · simp [h4]
              · simp only [h4, if_false]
                by_cases h5 : x.toNat < y.toNat
                · omega
                · simp only [h1, h5, if_false] at hba
                  simp only [h2, show ¬ y.toNat < z.toNat by omega, if_false] at hcb
                  exact ih hba hcb

theorem insName_perm (c : CameraInfo) (l : List CameraInfo) :
    (insName c l).Perm (c :: l) := by
  induction l with
  | nil => simp [insName]
  | cons d ds ih =>
    simp only [insName]
    by_cases h : strLt d.image_name c.image_name
    · simp only [h, if_true]
      exact (ih.cons d).trans (List.Perm.swap c d ds)
    · simp [h]

theorem sortByName_perm (l : List CameraInfo) : (sortByName l).Perm l := by
  induction l with
  | nil => simp [sortByName]
  | cons c cs ih =>
    exact (insName_perm c (sortByName cs)).trans (ih.cons c)

theorem insName_pairwise (c : CameraInfo) (l : List CameraInfo)
    (h : l.Pairwise nameLe) : (insName c l).Pairwise nameLe := by
  induction l with
  | nil => simp [insName, List.Pairwise]
  | cons d ds ih =>
    simp only [insName]
    rcases List.pairwise_cons.mp h with ⟨hd, hds⟩
    by_cases hc : strLt d.image_name c.image_name
    · simp only [hc, if_true]
      refine List.pairwise_cons.mpr ⟨?_, ih hds⟩
      intro x hx
      have hx' : x ∈ c :: ds := (insName_perm c ds).mem_iff.mp hx
      rcases List.mem_cons.mp hx' with rfl | hxd
      · exact strLtAux_asymm hc
      · exact hd x hxd
    · simp only [hc, if_false]
      refine List.pairwise_cons.mpr ⟨?_, h⟩
      intro x hx
      have hcd : nameLe c d := by
        simpa [nameLe] using hc
      rcases List.mem_cons.mp hx with rfl | hxd
      · exact hcd
      · exact strLtAux_neg_trans hcd (hd x hxd)

theorem sortByName_pairwise (l : List CameraInfo) : (sortByName l).Pairwise nameLe := by
  induction l with
  | nil => simp [sortByName]
  | cons c cs ih => exact insName_pairwise c (sortByName cs) ih

theorem dynerfTest_eq_take (d : ℕ) (l : List CameraInfo) : dynerfTest d l = l.take d := by
  simp [dynerfTest, pySlice]

theorem enumFrom_filter_lt_map_snd {α : Type} (d : ℕ) :
    ∀ (n : ℕ) (l : List α),
      ((List.enumFrom n l).filter (fun p => !decide (p.1 < d))).map Prod.snd = l.drop (d - n) := by
  intro n l
  induction l generalizing n with
  | nil => simp
  | cons a as ih =>
    simp only [List.enumFrom, List.filter_cons]
    by_cases h : n < d
    · rw [if_neg (by simp [h])]
      have hd : d - n = (d - (n + 1)) + 1 := by omega
      rw [hd, List.drop_succ_cons]
      exact ih (n + 1)
    · rw [if_pos (by simp [h]), List.map_cons, ih (n + 1)]
      have hd : d - n = 0 := by omega
      have hd' : d - (n + 1) = 0 := by omega
      simp [hd, hd']

theorem dynerfTrain_eq_drop (d : ℕ) (l : List CameraInfo) : dynerfTrain d l = l.drop d := by
  unfold dynerfTrain
  have hf : ∀ p : ℕ × CameraInfo,
      (!(([((0 : ℕ) * d, (0 + 1) * d)]).any (fun s => s.1 ≤ p.1 && p.1 < s.2)))
        = !decide (p.1 < d) := by
    intro p; simp
  simp only [List.map_cons, List.map_nil]
  rw [List.filter_congr (fun p _ => hf p)]
  have := enumFrom_filter_lt_map_snd d 0 l
  simpa [List.enum] using this

theorem foldl_max_mem (xs : List ℝ) (a : ℝ) : xs.foldl max a ∈ a :: xs := by
  induction xs generalizing a with
  | nil => simp
  | cons x xs ih =>
    simp only [List.foldl_cons]
    rcases max_choice a x with hm | hm <;> rw [hm]
    · rcases List.mem_cons.mp (ih a) with h | h
      · rw [h]; exact List.mem_cons_self _ _
      · exact List.mem_cons_of_mem _ (List.mem_cons_of_mem _ h)
    · rcases List.mem_cons.mp (ih x) with h | h
      · rw [h]; exact List.mem_cons_of_mem _ (List.mem_cons_self _ _)
      · exact List.mem_cons_of_mem _ (List.mem_cons_of_mem _ h)

theorem le_foldl_max (xs : List ℝ) (a : ℝ) :
    a ≤ xs.foldl max a ∧ ∀ x ∈ xs, x ≤ xs.foldl max a := by
  induction xs generalizing a with
  | nil => simp
  | cons x xs ih =>
    obtain ⟨h1, h2⟩ := ih (max a x)
    refine ⟨le_trans (le_max_left a x) h1, ?_⟩
    intro y hy
    rcases List.mem_cons.mp hy with rfl | hy
    · exact le_trans (le_max_right a y) h1
    · exact h2 y hy

theorem collectTake5Aux_sub {x : String} :
    ∀ (l : List CameraInfo) (acc : List String), x ∈ acc → x ∈ collectTake5Aux acc l := by
  intro l
  induction l with
  | nil => intro acc h; simpa [collectTake5Aux] using h
  | cons c cs ih =>
    intro acc h
    simp only [collectTake5Aux]
    by_cases hc : acc.contains (pyTake c.image_name 5)
    · rw [if_pos hc]; exact ih acc h
    · rw [if_neg hc]; exact ih _ (List.mem_append_left _ h)

theorem collectTake5Aux_mem {c : CameraInfo} :
    ∀ (l : List CameraInfo) (acc : List String), c ∈ l →
      pyTake c.image_name 5 ∈ collectTake5Aux acc l := by
  intro l
  induction l with
  | nil => intro acc h; simp at h
  | cons d ds ih =>
    intro acc h
    rcases List.mem_cons.mp h with rfl | h
    · simp only [collectTake5Aux]
      by_cases hc : acc.contains (pyTake c.image_name 5)
      · rw [if_pos hc]
        exact collectTake5Aux_sub ds acc (List.mem_of_elem_eq_true hc)
      · rw [if_neg hc]
        exact collectTake5Aux_sub ds _ (List.mem_append_right _ (List.mem_singleton.mpr rfl))
    · simp only [collectTake5Aux]
      exact ih _ h

/-! ### Frame-level and reader-level characterizations -/

theorem dynerfFrame_ok_fields {pE : String → Bool} {folder : String} {near far : ℚ}
    {startime duration : ℕ} {e : Extr} {intr : Intr} {FovY FovX : ℝ} {width height : ℚ}
    {j : ℕ} {c : CameraInfo}
    (h : dynerfFrame pE folder near far startime duration e intr FovY FovX width height j = .ok c) :
    c.timestamp = ((j : ℚ) - (startime : ℚ)) / (duration : ℚ)
      ∧ (c.pose.isSome = true ↔ j = startime)
      ∧ (c.image.isSome = true ↔ j = startime)
      ∧ c.width = width ∧ c.height = height
      ∧ (j = startime →
          c.image = some (PImg.resized c.image_path (pyint width) (pyint height))) := by
  simp only [dynerfFrame] at h
  split at h
  · split at h
    · rename_i hj
      obtain rfl := Except.ok.inj h
      simp [hj]
    · rename_i hj
      obtain rfl := Except.ok.inj h
      simp [hj]
  · cases h

theorem techFrame_ok_fields {pE : String → Bool} {folder : String} {near far : ℚ}
    {startime duration : ℕ} {e : Extr} {intr : Intr} {FovY FovX : ℝ}
    {j : ℕ} {c : CameraInfo}
    (h : techFrame pE folder near far startime duration e intr FovY FovX j = .ok c) :
    c.timestamp = ((j : ℚ) - (startime : ℚ)) / (duration : ℚ)
      ∧ (c.pose.isSome = true ↔ j = startime)
      ∧ c.image = some (PImg.opened c.image_path) := by
  simp only [techFrame] at h
  split at h
  · cases h
  · split at h
    · cases h
    · split at h
      · split at h
        · rename_i hj
          obtain rfl := Except.ok.inj h
          simp [hj]
        · rename_i hj
          obtain rfl := Except.ok.inj h
          simp [hj]
      · cases h

theorem pyJoin_two_mem_slash (a b : String) : '/' ∈ (pyJoin [a, b]).data := by
  simp [pyJoin, List.intercalate, List.intersperse]

theorem pyJoin_two_ne_cam10 (a b : String) : pyJoin [a, b] ≠ "cam10" := by
  intro h
  have hm : '/' ∈ (pyJoin [a, b]).data := pyJoin_two_mem_slash a b
  rw [h] at hm
  simp at hm

theorem techFrameTestonly_ok_fields {pE : String → Bool} {folder : String} {near far : ℚ}
    {startime duration : ℕ} {e : Extr} {intr : Intr} {FovY FovX : ℝ}
    {j : ℕ} {c : CameraInfo}
    (h : techFrameTestonly pE folder near far startime duration e intr FovY FovX j = .ok c) :
    c.timestamp = ((j : ℚ) - (startime : ℚ)) / (duration : ℚ)
      ∧ (c.pose.isSome = true ↔ j = startime)
      ∧ c.image = none := by
  simp only [techFrameTestonly] at h
  rw [if_neg (pyJoin_two_ne_cam10 _ _)] at h
  split at h
  · cases h
  · split at h
    · cases h
    · split at h
      · split at h
        · rename_i hj
          obtain rfl := Except.ok.inj h
          simp [hj]
        · rename_i hj
          obtain rfl := Except.ok.inj h
          simp [hj]
      · cases h

theorem dynerfReader_mem {pE : String → Bool} {ce : List Extr} {ci : List Intr}
    {folder : String} {near far : ℚ} {startime duration : ℕ}
    {l : List CameraInfo} {c : CameraInfo}
    (h : readColmapCamerasDynerf pE ce ci folder near far startime duration = .ok l)
    (hc : c ∈ l) :
    ∃ e ∈ ce, ∃ intr, lookupIntr ci e = .ok intr ∧
      ∃ FovY FovX : ℝ, ∃ j, startime ≤ j ∧ j < startime + duration ∧
        dynerfFrame pE folder near far startime duration e intr FovY FovX
          ((intr.width : ℚ) / 2) ((intr.height : ℚ) / 2) j = .ok c := by
  unfold readColmapCamerasDynerf at h
  cases hm : mapE (fun e =>
      match lookupIntr ci e with
      | .error err => .error err
      | .ok intr => dynerfCamera pE folder near far startime duration e intr) ce with
  | error err => rw [hm] at h; cases h
  | ok ls =>
    rw [hm] at h
    obtain rfl := Except.ok.inj h
    obtain ⟨li, hli, hcli⟩ := List.mem_flatten.mp hc
    obtain ⟨e, he, hcam⟩ := mapE_ok_mem hm li hli
    cases hlook : lookupIntr ci e with
    | error err => rw [hlook] at hcam; cases hcam
    | ok intr =>
      rw [hlook] at hcam
      refine ⟨e, he, intr, hlook, ?_⟩
      simp only [dynerfCamera] at hcam
      cases hf : fovDynerf intr with
      | error err => rw [hf] at hcam; cases hcam
      | ok p =>
        rw [hf] at hcam
        obtain ⟨FovY, FovX⟩ := p
        simp only at hcam
        obtain ⟨j, hj, hframe⟩ := mapE_ok_mem hcam c hcli
        obtain ⟨hj1, hj2⟩ := List.mem_range'_1.mp hj
        exact ⟨FovY, FovX, j, hj1, hj2, hframe⟩

theorem techReader_mem {pE : String → Bool} {ce : List Extr} {ci : List Intr}
    {folder : String} {near far : ℚ} {startime duration : ℕ}
    {l : List CameraInfo} {c : CameraInfo}
    (h : readColmapCamerasTechnicolor pE ce ci folder near far startime duration = .ok l)
    (hc : c ∈ l) :
    ∃ e ∈ ce, ∃ intr, lookupIntr ci e = .ok intr ∧
      ∃ FovY FovX : ℝ, ∃ j, startime ≤ j ∧ j < startime + duration ∧
        techFrame pE folder near far startime duration e intr FovY FovX j = .ok c := by
  unfold readColmapCamerasTechnicolor at h
  cases hm : mapE (fun e =>
      match lookupIntr ci e with
      | .error err => .error err
      | .ok intr => techCamera pE folder near far startime duration e intr) ce with
  | error err => rw [hm] at h; cases h
  | ok ls =>
    rw [hm] at h
    obtain rfl := Except.ok.inj h
    obtain ⟨li, hli, hcli⟩ := List.mem_flatten.mp hc
    obtain ⟨e, he, hcam⟩ := mapE_ok_mem hm li hli
    cases hlook : lookupIntr ci e with
    | error err => rw [hlook] at hcam; cases hcam
    | ok intr =>
      rw [hlook] at hcam
      refine ⟨e, he, intr, hlook, ?_⟩
      simp only [techCamera] at hcam
      cases hf : fovTech intr with
      | error err => rw [hf] at hcam; cases hcam
      | ok p =>
        rw [hf] at hcam
        obtain ⟨FovY, FovX⟩ := p
        simp only at hcam
        obtain ⟨j, hj, hframe⟩ := mapE_ok_mem hcam c hcli
        obtain ⟨hj1, hj2⟩ := List.mem_range'_1.mp hj
        exact ⟨FovY, FovX, j, hj1, hj2, hframe⟩

theorem techReaderTestonly_mem {pE : String → Bool} {ce : List Extr} {ci : List Intr}
    {folder : String} {near far : ℚ} {startime duration : ℕ}
    {l : List CameraInfo} {c : CameraInfo}
    (h : readColmapCamerasTechnicolorTestonly pE ce ci folder near far startime duration = .ok l)
    (hc : c ∈ l) :
    ∃ e ∈ ce, ∃ intr, lookupIntr ci e = .ok intr ∧
      ∃ FovY FovX : ℝ, ∃ j, startime ≤ j ∧ j < startime + duration ∧
        techFrameTestonly pE folder near far startime duration e intr FovY FovX j = .ok c := by
  unfold readColmapCamerasTechnicolorTestonly at h
  cases hm : mapE (fun e =>
      match lookupIntr ci e with
      | .error err => .error err
      | .ok intr => techCameraTestonly pE folder near far startime duration e intr) ce with
  | error err => rw [hm] at h; cases h
  | ok ls =>
    rw [hm] at h
    obtain rfl := Except.ok.inj h
    obtain ⟨li, hli, hcli⟩ := List.mem_flatten.mp hc
    obtain ⟨e, he, hcam⟩ := mapE_ok_mem hm li hli
    cases hlook : lookupIntr ci e with
    | error err => rw [hlook] at hcam; cases hcam
    | ok intr =>
      rw [hlook] at hcam
      refine ⟨e, he, intr, hlook, ?_⟩
      simp only [techCameraTestonly] at hcam
      cases hf : fovTech intr with
      | error err => rw [hf] at hcam; cases hcam
      | ok p =>
        rw [hf] at hcam
        obtain ⟨FovY, FovX⟩ := p
        simp only at hcam
        obtain ⟨j, hj, hframe⟩ := mapE_ok_mem hcam c hcli
        obtain ⟨hj1, hj2⟩ := List.mem_range'_1.mp hj
        exact ⟨FovY, FovX, j, hj1, hj2, hframe⟩

/-- Timestamp facts common to all readers: for a frame index `j` in
`range(startime, startime+duration)` the normalized timestamp
`(j - startime)/duration` lies in `[0, 1]` and vanishes exactly at the first
frame. -/
theorem timestamp_facts {startime duration j : ℕ}
    (h1 : startime ≤ j) (h2 : j < startime + duration) :
    0 ≤ ((j : ℚ) - (startime : ℚ)) / (duration : ℚ)
      ∧ ((j : ℚ) - (startime : ℚ)) / (duration : ℚ) ≤ 1
      ∧ (((j : ℚ) - (startime : ℚ)) / (duration : ℚ) = 0 ↔ j = startime) := by
  have hd : 0 < duration := by omega
  have hdq : (0 : ℚ) < (duration : ℚ) := by exact_mod_cast hd
  have hnum0 : (0 : ℚ) ≤ (j : ℚ) - (startime : ℚ) := by
    have : (startime : ℚ) ≤ (j : ℚ) := by exact_mod_cast h1
    linarith
  refine ⟨div_nonneg hnum0 (le_of_lt hdq), ?_, ?_⟩
  · rw [div_le_one hdq]
    have : (j : ℚ) < (startime : ℚ) + (duration : ℚ) := by exact_mod_cast h2
    linarith
  · rw [div_eq_zero_iff]
    constructor
    · intro hor
      rcases hor with h0 | h0
      · have : (j : ℚ) = (startime : ℚ) := by linarith
        exact_mod_cast this
      · exact absurd h0 (ne_of_gt hdq)
    · intro hj
      left
      rw [hj]
      ring

/-! ### Assembler characterizations -/

/-- The point-cloud value the COLMAP assemblers store: skipped in testonly
mode, otherwise the guarded (`try/except`) load result. -/
noncomputable def pcdOf (fetchPly : String → Except String BasicPointCloud)
    (ply_path : String) (testonly : Bool) : Option BasicPointCloud :=
  if testonly then none else
    match fetchPly ply_path with
    | .ok p => some p
    | .error _ => none

theorem dynerf_scene_ok_elim {pE : String → Bool}
    {fP : String → Except String BasicPointCloud} {path : String}
    {ce : List Extr} {ci : List Intr} {duration : ℕ} {testonly : Bool}
    {s : SceneInfo (List CameraInfo)}
    (h : readColmapSceneInfoDynerf pE fP path ce ci duration testonly = .ok s) :
    ∃ l nn, readColmapCamerasDynerf pE ce ci path (1/100) 100 0 duration = .ok l
      ∧ getNerfppNorm (dynerfTrain duration (sortByName l)) = .ok nn
      ∧ s = { point_cloud := pcdOf fP (pyJoin [path, "sparse/0/points3D.ply"]) testonly,
              train_cameras := dynerfTrain duration (sortByName l),
              test_cameras := dynerfTest duration (sortByName l),
              video_cameras := dynerfTest duration (sortByName l),
              nerf_normalization := nn,
              ply_path := pyJoin [path, "sparse/0/points3D.ply"] } := by
  unfold readColmapSceneInfoDynerf at h
  cases hr : readColmapCamerasDynerf pE ce ci path (1/100) 100 0 duration with
  | error err => rw [hr] at h; cases h
  | ok l =>
    rw [hr] at h
    simp only at h
    cases hn : getNerfppNorm (dynerfTrain duration (sortByName l)) with
    | error err => rw [hn] at h; cases h
    | ok nn =>
      rw [hn] at h
      refine ⟨l, nn, rfl, hn, ?_⟩
      obtain rfl := Except.ok.inj h
      rfl

theorem dynerf_scene_ok_intro {pE : String → Bool}
    {fP : String → Except String BasicPointCloud} {path : String}
    {ce : List Extr} {ci : List Intr} {duration : ℕ} {testonly : Bool}
    {l : List CameraInfo} {nn : NerfNorm}
    (hr : readColmapCamerasDynerf pE ce ci path (1/100) 100 0 duration = .ok l)
    (hn : getNerfppNorm (dynerfTrain duration (sortByName l)) = .ok nn) :
    readColmapSceneInfoDynerf pE fP path ce ci duration testonly =
      .ok { point_cloud := pcdOf fP (pyJoin [path, "sparse/0/points3D.ply"]) testonly,
            train_cameras := dynerfTrain duration (sortByName l),
            test_cameras := dynerfTest duration (sortByName l),
            video_cameras := dynerfTest duration (sortByName l),
            nerf_normalization := nn,
            ply_path := pyJoin [path, "sparse/0/points3D.ply"] } := by
  unfold readColmapSceneInfoDynerf
  rw [hr]
  simp only
  rw [hn]
  rfl

/-- The reader an assembler call of the Technicolor family dispatches to. -/
noncomputable def techReaderOf (pE : String → Bool) (ce : List Extr) (ci : List Intr)
    (path : String) (duration : ℕ) (testonly : Bool) : Except String (List CameraInfo) :=
  if testonly then readColmapCamerasTechnicolorTestonly pE ce ci path (1/100) 100 0 duration
  else readColmapCamerasTechnicolor pE ce ci path (1/100) 100 0 duration

theorem tech_scene_ok_elim {pE : String → Bool}
    {fP : String → Except String BasicPointCloud} {path : String}
    {ce : List Extr} {ci : List Intr} {duration : ℕ} {testonly : Bool}
    {s : SceneInfo (List CameraInfo)}
    (h : readColmapSceneInfoTechnicolor pE fP path ce ci duration testonly = .ok s) :
    ∃ l nn, techReaderOf pE ce ci path duration testonly = .ok l
      ∧ (collectTake5 (techTest (sortByName l))).length = 1
      ∧ (collectTake5 (techTest (sortByName l))).all
          (fun t => !((collectTake5 (techTrain (sortByName l))).contains t)) = true
      ∧ getNerfppNorm (techTrain (sortByName l)) = .ok nn
      ∧ s = { point_cloud := pcdOf fP (pyJoin [path, "points3D_downsample.ply"]) testonly,
              train_cameras := techTrain (sortByName l),
              test_cameras := techTest (sortByName l),
              video_cameras := [],
              nerf_normalization := nn,
              ply_path := pyJoin [path, "points3D_downsample.ply"] } := by
  unfold readColmapSceneInfoTechnicolor at h
  rw [show (if testonly then readColmapCamerasTechnicolorTestonly pE ce ci path (1/100) 100 0 duration
      else readColmapCamerasTechnicolor pE ce ci path (1/100) 100 0 duration)
      = techReaderOf pE ce ci path duration testonly from rfl] at h
  cases hr : techReaderOf pE ce ci path duration testonly with
  | error err => rw [hr] at h; cases h
  | ok l =>
    rw [hr] at h
    simp only at h
    by_cases h1 : (collectTake5 (techTest (sortByName l))).length = 1
    · rw [if_pos h1] at h
      by_cases h2 : (collectTake5 (techTest (sortByName l))).all
          (fun t => !((collectTake5 (techTrain (sortByName l))).contains t)) = true
      · rw [if_pos h2] at h
        cases hn : getNerfppNorm (techTrain (sortByName l)) with
        | error err => rw [hn] at h; cases h
        | ok nn =>
          rw [hn] at h
          refine ⟨l, nn, rfl, h1, h2, hn, ?_⟩
          obtain rfl := Except.ok.inj h
          rfl
      · rw [if_neg h2] at h; cases h
    · rw [if_neg h1] at h; cases h

theorem tech_scene_ok_intro {pE : String → Bool}
    {fP : String → Except String BasicPointCloud} {path : String}
    {ce : List Extr} {ci : List Intr} {duration : ℕ} {testonly : Bool}
    {l : List CameraInfo} {nn : NerfNorm}
    (hr : techReaderOf pE ce ci path duration testonly = .ok l)
    (h1 : (collectTake5 (techTest (sortByName l))).length = 1)
    (h2 : (collectTake5 (techTest (sortByName l))).all
        (fun t => !((collectTake5 (techTrain (sortByName l))).contains t)) = true)
    (hn : getNerfppNorm (techTrain (sortByName l)) = .ok nn) :
    readColmapSceneInfoTechnicolor pE fP path ce ci duration testonly =
      .ok { point_cloud := pcdOf fP (pyJoin [path, "points3D_downsample.ply"]) testonly,
            train_cameras := techTrain (sortByName l),
            test_cameras := techTest (sortByName l),
            video_cameras := [],
            nerf_normalization := nn,
            ply_path := pyJoin [path, "points3D_downsample.ply"] } := by
  unfold readColmapSceneInfoTechnicolor
  rw [show (if testonly then readColmapCamerasTechnicolorTestonly pE ce ci path (1/100) 100 0 duration
      else readColmapCamerasTechnicolor pE ce ci path (1/100) 100 0 duration)
      = techReaderOf pE ce ci path duration testonly from rfl]
  rw [hr]
  simp only
  rw [if_pos h1, if_pos h2, hn]
  rfl

theorem getNerfppNorm_ne_nil {l : List CameraInfo} (h : l ≠ []) :
    ∃ nn, getNerfppNorm l = .ok nn := by
  unfold getNerfppNorm
  cases l with
  | nil => exact absurd rfl h
  | cons c cs => exact ⟨_, rfl⟩

/-! ### Claim C2: `getNerfppNorm` -/

/-- The mean of the cameras' world positions, following the spec's words
("average them"). -/
noncomputable def specCenter (l : List CameraInfo) : Fin 3 → ℝ :=
  fun i => (l.map (fun c => camCenter c i)).sum / (l.length : ℝ)

/-- A camera's Euclidean distance from the mean position, following the spec's
words ("find the maximum distance from the average"). -/
noncomputable def camDist (l : List CameraInfo) (c : CameraInfo) : ℝ :=
  Real.sqrt (∑ i : Fin 3, (camCenter c i - specCenter l i) ^ 2)

theorem listMax_mem : ∀ {l : List ℝ}, l ≠ [] → listMax l ∈ l := by
  intro l h
  cases l with
  | nil => exact absurd rfl h
  | cons x xs => exact foldl_max_mem xs x

theorem listMax_ub : ∀ {l : List ℝ}, ∀ x ∈ l, x ≤ listMax l := by
  intro l x hx
  cases l with
  | nil => simp at hx
  | cons y ys =>
    rcases List.mem_cons.mp hx with rfl | hx
    · exact (le_foldl_max ys x).1
    · exact (le_foldl_max ys y).2 x hx

theorem get_center_and_diag_eq (l : List CameraInfo) :
    get_center_and_diag (l.map camCenter) = (specCenter l, listMax (l.map (camDist l))) := by
  unfold get_center_and_diag
  have havg : (fun i : Fin 3 =>
      ((l.map camCenter).map (fun p => p i)).sum / ((l.map camCenter).length : ℝ))
        = specCenter l := by
    funext i
    rw [List.map_map, List.length_map]
    rfl
  refine congrArg₂ Prod.mk (by rw [havg]) ?_
  congr 1
  rw [List.map_map]
  refine List.map_congr_left ?_
  intro d _
  show Real.sqrt (∑ i : Fin 3, (camCenter d i
      - ((l.map camCenter).map (fun p => p i)).sum / ((l.map camCenter).length : ℝ)) ^ 2)
    = camDist l d
  unfold camDist
  congr 1
  refine Finset.sum_congr rfl ?_
  intro i _
  rw [congrFun havg i]

theorem getNerfppNorm_cons (c : CameraInfo) (cs : List CameraInfo) :
    getNerfppNorm (c :: cs) = .ok
      { translate := fun i => -(specCenter (c :: cs) i),
        radius := listMax ((c :: cs).map (camDist (c :: cs))) * 1.1 } := by
  unfold getNerfppNorm
  rw [show ((c :: cs).map camCenter) = camCenter c :: cs.map camCenter from List.map_cons _ _ _]
  have h := get_center_and_diag_eq (c :: cs)
  rw [List.map_cons] at h
  dsimp only
  rw [h]

theorem specCenter_singleton (c : CameraInfo) (i : Fin 3) :
    specCenter [c] i = camCenter c i := by
  simp [specCenter]

theorem camDist_singleton (c : CameraInfo) : camDist [c] c = 0 := by
  unfold camDist
  have : ∀ i : Fin 3, (camCenter c i - specCenter [c] i) ^ 2 = 0 := by
    intro i
    rw [specCenter_singleton]
    ring
  rw [Finset.sum_congr rfl (fun i _ => this i)]
  simp

/-- C2: for every non-empty list of train `CameraInfo`, `getNerfppNorm` returns
`translate` equal to the negated mean of the cameras' world positions (the
translation column of the inverted world-to-camera matrix) and `radius` equal
to 1.1 times the maximum distance from a camera position to that mean; for a
single-camera list, `radius = 0` and `translate` is the negated position of
that camera. -/
theorem C2_getNerfppNorm_spec (l : List CameraInfo) (h : l ≠ []) :
    ∃ nn, getNerfppNorm l = .ok nn
      ∧ (∀ i, nn.translate i = -(specCenter l i))
      ∧ (∃ c ∈ l, nn.radius = 1.1 * camDist l c)
      ∧ (∀ c ∈ l, 1.1 * camDist l c ≤ nn.radius)
      ∧ (∀ c, l = [c] → nn.radius = 0 ∧ (∀ i, nn.translate i = -(camCenter c i))) := by
  cases l with
  | nil => exact absurd rfl h
  | cons c cs =>
    refine ⟨_, getNerfppNorm_cons c cs, fun i => rfl, ?_, ?_, ?_⟩
    · have hne : (c :: cs).map (camDist (c :: cs)) ≠ [] := by simp
      have hmem := listMax_mem hne
      obtain ⟨d, hd, hde⟩ := List.mem_map.mp hmem
      refine ⟨d, hd, ?_⟩
      rw [← hde]
      show camDist (c :: cs) d * 1.1 = 1.1 * camDist (c :: cs) d
      ring
    · intro d hd
      have hub := listMax_ub (camDist (c :: cs) d)
        (List.mem_map.mpr ⟨d, hd, rfl⟩)
      show 1.1 * camDist (c :: cs) d ≤ listMax ((c :: cs).map (camDist (c :: cs))) * 1.1
      nlinarith [hub]
    · intro d hd
      obtain ⟨rfl, rfl⟩ : c = d ∧ cs = [] := by
        injection hd with h1 h2
        exact ⟨h1, h2⟩
      constructor
      · show listMax ([c].map (camDist [c])) * 1.1 = 0
        have : [c].map (camDist [c]) = [camDist [c] c] := by simp
        rw [this]
        show ([] : List ℝ).foldl max (camDist [c] c) * 1.1 = 0
        rw [List.foldl_nil, camDist_singleton]
        ring
      · intro i
        show -(specCenter [c] i) = -(camCenter c i)
        rw [specCenter_singleton]

/-- Witness for C2 at the one-element list of a concrete camera. -/
noncomputable def camOne : CameraInfo :=
  { uid := 0, R := 1, T := fun _ => 0, FovY := 0, FovX := 0, image := none,
    image_path := "", image_name := "cam00/0000.png", width := 1, height := 1,
    near := 1/100, far := 100, timestamp := 0, pose := some 1, hpdirecitons := some 1,
    cxr := 0, cyr := 0 }

theorem C2_getNerfppNorm_spec_witness :
    ([camOne] ≠ ([] : List CameraInfo))
      ∧ (∃ nn, getNerfppNorm [camOne] = .ok nn
          ∧ (∀ i, nn.translate i = -(specCenter [camOne] i))
          ∧ (∃ c ∈ [camOne], nn.radius = 1.1 * camDist [camOne] c)
          ∧ (∀ c ∈ [camOne], 1.1 * camDist [camOne] c ≤ nn.radius)
          ∧ (∀ c, [camOne] = [c] → nn.radius = 0
              ∧ (∀ i, nn.translate i = -(camCenter c i)))) :=
  ⟨by simp, C2_getNerfppNorm_spec [camOne] (by simp)⟩

/-! ### Concrete fixtures used by witnesses and counterexamples -/

/-- A filesystem oracle on which every image path exists. -/
def pEyes : String → Bool := fun _ => true

/-- A PLY loader that always fails (missing/corrupt file). -/
def fpFail : String → Except String BasicPointCloud := fun _ => .error "No such file"

/-- A PLY loader that always succeeds with an empty cloud. -/
def fpOk : String → Except String BasicPointCloud := fun _ => .ok ⟨[], [], []⟩

/-- Dynerf-style extrinsics: two cameras named `a.png` and `b.png`. -/
noncomputable def extrA : Extr := ⟨0, "a.png", fun _ => 0, fun _ => 0⟩

noncomputable def extrB : Extr := ⟨1, "b.png", fun _ => 0, fun _ => 0⟩

/-- Matching pinhole intrinsics (fx=1, fy=1, cx=2, cy=1 on a 4×2 sensor). -/
def intrA : Intr := ⟨0, "PINHOLE", 4, 2, [1, 1, 2, 1]⟩

def intrB : Intr := ⟨1, "PINHOLE", 4, 2, [1, 1, 2, 1]⟩

/-- Technicolor-style extrinsics: a regular camera and the held-out `cam10`. -/
noncomputable def extrT0 : Extr := ⟨0, "cam00.png", fun _ => 0, fun _ => 0⟩

noncomputable def extrT10 : Extr := ⟨1, "cam10.png", fun _ => 0, fun _ => 0⟩

/-! ### Claim C1: the Dynerf train/test partition -/

/-- C1: for the Dynerf assembler, the test list is exactly the contiguous
block of `duration` consecutive entries of the name-sorted camera list that
the fixed `test_cams = [0]` index list selects, the train list is exactly the
remaining entries, the two together restore the sorted list (so they are
disjoint and cover every produced CameraInfo exactly once, the sorted list
being a permutation of the reader output); and on the concrete 2-camera,
3-frame layout the assembler yields exactly 3 test/video records (all from
the name-first camera) and 3 train records (all from the other camera), each
list constant in name and hence name-sorted. -/
theorem C1_dynerf_split :
    (∀ (pE : String → Bool) (fP : String → Except String BasicPointCloud)
        (path : String) (ce : List Extr) (ci : List Intr) (duration : ℕ)
        (testonly : Bool) (l : List CameraInfo) (s : SceneInfo (List CameraInfo)),
      readColmapCamerasDynerf pE ce ci path (1/100) 100 0 duration = .ok l →
      readColmapSceneInfoDynerf pE fP path ce ci duration testonly = .ok s →
      s.test_cameras = (sortByName l).take duration
        ∧ s.train_cameras = (sortByName l).drop duration
        ∧ s.test_cameras ++ s.train_cameras = sortByName l
        ∧ (sortByName l).Perm l
        ∧ (sortByName l).Pairwise nameLe)
    ∧ (readColmapSceneInfoDynerf pEyes fpFail "p" [extrB, extrA] [intrA, intrB] 3 false).map
        (fun s => (s.test_cameras.map (·.image_name), s.train_cameras.map (·.image_name),
          s.test_cameras.map (·.uid), s.train_cameras.map (·.uid),
          s.test_cameras.length, s.train_cameras.length))
      = .ok (["a.png", "a.png", "a.png"], ["b.png", "b.png", "b.png"],
          [0, 0, 0], [1, 1, 1], 3, 3) := by
  constructor
  · intro pE fP path ce ci duration testonly l s hr hs
    obtain ⟨l', nn, hr', hn', hseq⟩ := dynerf_scene_ok_elim hs
    rw [hr] at hr'
    obtain rfl := Except.ok.inj hr'
    subst hseq
    refine ⟨?_, ?_, ?_, sortByName_perm l, sortByName_pairwise l⟩
    · show dynerfTest duration (sortByName l) = _
      exact dynerfTest_eq_take duration (sortByName l)
    · show dynerfTrain duration (sortByName l) = _
      exact dynerfTrain_eq_drop duration (sortByName l)
    · show dynerfTest duration (sortByName l) ++ dynerfTrain duration (sortByName l) = _
      rw [dynerfTest_eq_take, dynerfTrain_eq_drop]
      exact List.take_append_drop duration (sortByName l)
  · decide

/-- Witness for C1's universally quantified part at the concrete 2-camera,
3-frame layout. -/
theorem C1_dynerf_split_witness :
    ∃ l s,
      readColmapCamerasDynerf pEyes [extrB, extrA] [intrA, intrB] "p" (1/100) 100 0 3 = .ok l
      ∧ readColmapSceneInfoDynerf pEyes fpFail "p" [extrB, extrA] [intrA, intrB] 3 false = .ok s
      ∧ (s.test_cameras = (sortByName l).take 3
          ∧ s.train_cameras = (sortByName l).drop 3
          ∧ s.test_cameras ++ s.train_cameras = sortByName l
          ∧ (sortByName l).Perm l
          ∧ (sortByName l).Pairwise nameLe) := by
  have h1 : (readColmapCamerasDynerf pEyes [extrB, extrA] [intrA, intrB] "p"
      (1/100) 100 0 3).isOk = true := by decide
  have h2 : (readColmapSceneInfoDynerf pEyes fpFail "p" [extrB, extrA] [intrA, intrB]
      3 false).isOk = true := by decide
  cases hr : readColmapCamerasDynerf pEyes [extrB, extrA] [intrA, intrB] "p"
      (1/100) 100 0 3 with
  | error e => rw [hr] at h1; cases h1
  | ok l =>
    cases hs : readColmapSceneInfoDynerf pEyes fpFail "p" [extrB, extrA] [intrA, intrB]
        3 false with
    | error e => rw [hs] at h2; cases h2
    | ok s =>
      exact ⟨l, s, rfl, rfl,
        C1_dynerf_split.1 pEyes fpFail "p" [extrB, extrA] [intrA, intrB] 3 false l s hr hs⟩

/-! ### Claim C9: video splits -/

/-- C9: the Dynerf assembler stores the test camera list as the video camera
list as well, while the Technicolor assembler stores an empty video list. -/
theorem C9_video_split :
    (∀ (pE : String → Bool) (fP : String → Except String BasicPointCloud)
        (path : String) (ce : List Extr) (ci : List Intr) (duration : ℕ)
        (testonly : Bool) (s : SceneInfo (List CameraInfo)),
      readColmapSceneInfoDynerf pE fP path ce ci duration testonly = .ok s →
      s.video_cameras = s.test_cameras)
    ∧ (∀ (pE : String → Bool) (fP : String → Except String BasicPointCloud)
        (path : String) (ce : List Extr) (ci : List Intr) (duration : ℕ)
        (testonly : Bool) (s : SceneInfo (List CameraInfo)),
      readColmapSceneInfoTechnicolor pE fP path ce ci duration testonly = .ok s →
      s.video_cameras = []) := by
  constructor
  · intro pE fP path ce ci duration testonly s hs
    obtain ⟨l, nn, hr, hn, rfl⟩ := dynerf_scene_ok_elim hs
    rfl
  · intro pE fP path ce ci duration testonly s hs
    obtain ⟨l, nn, hr, h1, h2, hn, rfl⟩ := tech_scene_ok_elim hs
    rfl

/-- Witness for C9 at concrete Dynerf and Technicolor runs. -/
theorem C9_video_split_witness :
    ∃ sd st,
      readColmapSceneInfoDynerf pEyes fpFail "p" [extrB, extrA] [intrA, intrB] 3 false = .ok sd
      ∧ readColmapSceneInfoTechnicolor pEyes fpOk "p" [extrT0, extrT10] [intrA, intrB] 1 false
          = .ok st
      ∧ sd.video_cameras = sd.test_cameras
      ∧ st.video_cameras = [] := by
  have h1 : (readColmapSceneInfoDynerf pEyes fpFail "p" [extrB, extrA] [intrA, intrB]
      3 false).isOk = true := by decide
  have h2 : (readColmapSceneInfoTechnicolor pEyes fpOk "p" [extrT0, extrT10] [intrA, intrB]
      1 false).isOk = true := by decide
  cases hd : readColmapSceneInfoDynerf pEyes fpFail "p" [extrB, extrA] [intrA, intrB]
      3 false with
  | error e => rw [hd] at h1; cases h1
  | ok sd =>
    cases ht : readColmapSceneInfoTechnicolor pEyes fpOk "p" [extrT0, extrT10] [intrA, intrB]
        1 false with
    | error e => rw [ht] at h2; cases h2
    | ok st =>
      exact ⟨sd, st, rfl, rfl,
        C9_video_split.1 pEyes fpFail "p" [extrB, extrA] [intrA, intrB] 3 false sd hd,
        C9_video_split.2 pEyes fpOk "p" [extrT0, extrT10] [intrA, intrB] 1 false st ht⟩

/-! ### Claim C4: the Technicolor name split and its sanity check -/

/-- C4: the Technicolor assembler puts every record whose `image_name`
contains `"cam10"` in the test list and every other record in the train list,
and on success the held-out 5-character name prefix provably does not occur
among the train records' prefixes (enforced by the fatal uniqueness/sanity
asserts). -/
theorem C4_technicolor_split :
    ∀ (pE : String → Bool) (fP : String → Except String BasicPointCloud)
      (path : String) (ce : List Extr) (ci : List Intr) (duration : ℕ)
      (testonly : Bool) (l : List CameraInfo) (s : SceneInfo (List CameraInfo)),
      techReaderOf pE ce ci path duration testonly = .ok l →
      readColmapSceneInfoTechnicolor pE fP path ce ci duration testonly = .ok s →
      s.test_cameras = (sortByName l).filter (fun c => pyIn "cam10" c.image_name)
        ∧ s.train_cameras = (sortByName l).filter (fun c => !(pyIn "cam10" c.image_name))
        ∧ (∀ c ∈ s.test_cameras, pyIn "cam10" c.image_name = true)
        ∧ (∀ c ∈ s.train_cameras, pyIn "cam10" c.image_name = false)
        ∧ (∀ t ∈ s.test_cameras, ∀ tr ∈ s.train_cameras,
            pyTake t.image_name 5 ≠ pyTake tr.image_name 5) := by
  intro pE fP path ce ci duration testonly l s hr hs
  obtain ⟨l', nn, hr', h1, h2, hn, hseq⟩ := tech_scene_ok_elim hs
  rw [hr] at hr'
  obtain rfl := Except.ok.inj hr'
  subst hseq
  refine ⟨rfl, rfl, ?_, ?_, ?_⟩
  · intro c hc
    exact (List.mem_filter.mp hc).2
  · intro c hc
    have := (List.mem_filter.mp hc).2
    simpa using this
  · intro t ht tr htr
    obtain ⟨t₀, ht₀⟩ := List.length_eq_one.mp h1
    have htmem : pyTake t.image_name 5 ∈ collectTake5 (techTest (sortByName l)) :=
      collectTake5Aux_mem _ [] ht
    have htrmem : pyTake tr.image_name 5 ∈ collectTake5 (techTrain (sortByName l)) :=
      collectTake5Aux_mem _ [] htr
    rw [ht₀] at htmem
    have ht₀eq : pyTake t.image_name 5 = t₀ := List.mem_singleton.mp htmem
    have hnotin : t₀ ∉ collectTake5 (techTrain (sortByName l)) := by
      intro hmem
      rw [ht₀] at h2
      simp only [List.all_cons, List.all_nil, Bool.and_true] at h2
      rw [show ((collectTake5 (techTrain (sortByName l))).contains t₀) = true from
        List.elem_iff.mpr hmem] at h2
      cases h2
    intro heq
    exact hnotin (by rw [← ht₀eq, heq]; exact htrmem)

/-- Witness for C4 at a concrete Technicolor run with cameras `cam00` and
`cam10`. -/
theorem C4_technicolor_split_witness :
    ∃ l s,
      techReaderOf pEyes [extrT0, extrT10] [intrA, intrB] "p" 1 false = .ok l
      ∧ readColmapSceneInfoTechnicolor pEyes fpOk "p" [extrT0, extrT10] [intrA, intrB] 1 false
          = .ok s
      ∧ (s.test_cameras = (sortByName l).filter (fun c => pyIn "cam10" c.image_name)
          ∧ s.train_cameras = (sortByName l).filter (fun c => !(pyIn "cam10" c.image_name))
          ∧ (∀ c ∈ s.test_cameras, pyIn "cam10" c.image_name = true)
          ∧ (∀ c ∈ s.train_cameras, pyIn "cam10" c.image_name = false)
          ∧ (∀ t ∈ s.test_cameras, ∀ tr ∈ s.train_cameras,
              pyTake t.image_name 5 ≠ pyTake tr.image_name 5)) := by
  have h1 : (techReaderOf pEyes [extrT0, extrT10] [intrA, intrB] "p" 1 false).isOk = true := by
    decide
  have h2 : (readColmapSceneInfoTechnicolor pEyes fpOk "p" [extrT0, extrT10] [intrA, intrB]
      1 false).isOk = true := by decide
  cases hr : techReaderOf pEyes [extrT0, extrT10] [intrA, intrB] "p" 1 false with
  | error e => rw [hr] at h1; cases h1
  | ok l =>
    cases hs : readColmapSceneInfoTechnicolor pEyes fpOk "p" [extrT0, extrT10] [intrA, intrB]
        1 false with
    | error e => rw [hs] at h2; cases h2
    | ok s =>
      exact ⟨l, s, rfl, rfl,
        C4_technicolor_split pEyes fpOk "p" [extrT0, extrT10] [intrA, intrB] 1 false l s hr hs⟩

/-! ### Claim C10: a Technicolor dataset without `cam10` can never assemble -/

/-- C10: whenever the chosen Technicolor reader succeeds but none of the
produced records' names contains `"cam10"`, the assembler aborts with the
uniqueness assertion (the empty test split has 0 ≠ 1 distinct prefixes), so
no SceneInfo is ever produced. -/
theorem C10_no_cam10_aborts :
    ∀ (pE : String → Bool) (fP : String → Except String BasicPointCloud)
      (path : String) (ce : List Extr) (ci : List Intr) (duration : ℕ)
      (testonly : Bool) (l : List CameraInfo),
      techReaderOf pE ce ci path duration testonly = .ok l →
      (∀ c ∈ l, pyIn "cam10" c.image_name = false) →
      readColmapSceneInfoTechnicolor pE fP path ce ci duration testonly
        = .error "AssertionError" := by
  intro pE fP path ce ci duration testonly l hr hno
  have htest : techTest (sortByName l) = [] := by
    unfold techTest
    rw [List.filter_eq_nil_iff]
    intro c hc
    have : c ∈ l := (sortByName_perm l).mem_iff.mp hc
    simp [hno c this]
  unfold readColmapSceneInfoTechnicolor
  rw [show (if testonly then readColmapCamerasTechnicolorTestonly pE ce ci path
        (1/100) 100 0 duration
      else readColmapCamerasTechnicolor pE ce ci path (1/100) 100 0 duration)
      = techReaderOf pE ce ci path duration testonly from rfl]
  rw [hr]
  simp only
  rw [htest]
  rfl

/-- Witness for C10 at a concrete single-camera dataset without `cam10`. -/
theorem C10_no_cam10_aborts_witness :
    ∃ l, techReaderOf pEyes [extrT0] [intrA] "p" 1 false = .ok l
      ∧ (∀ c ∈ l, pyIn "cam10" c.image_name = false)
      ∧ readColmapSceneInfoTechnicolor pEyes fpOk "p" [extrT0] [intrA] 1 false
          = .error "AssertionError" := by
  have h1 : (techReaderOf pEyes [extrT0] [intrA] "p" 1 false).map
      (fun l => l.all (fun c => !(pyIn "cam10" c.image_name))) = .ok true := by decide
  cases hr : techReaderOf pEyes [extrT0] [intrA] "p" 1 false with
  | error e => rw [hr] at h1; cases h1
  | ok l =>
    rw [hr] at h1
    have hall : l.all (fun c => !(pyIn "cam10" c.image_name)) = true := Except.ok.inj h1
    have hno : ∀ c ∈ l, pyIn "cam10" c.image_name = false := by
      intro c hc
      have := List.all_eq_true.mp hall c hc
      simpa using this
    exact ⟨l, rfl, hno,
      C10_no_cam10_aborts pEyes fpOk "p" [extrT0] [intrA] 1 false l hr hno⟩

/-! ### Claim C7: intrinsics model handling -/

theorem mapE_singleton {α β : Type} (f : α → Except String β) (x : α) :
    mapE f [x] = match f x with
      | .error e => .error e
      | .ok y => .ok [y] := by
  cases hfx : f x <;> simp [mapE, hfx]

/-- C7: every reader handles exactly the two models `"SIMPLE_PINHOLE"` (one
focal length reused for both axes) and `"PINHOLE"` (separate fx/fy); any
other model string makes the intrinsics block, and hence the reader itself,
abort with the fatal assertion before any CameraInfo is produced. -/
theorem C7_intrinsics_models :
    ∀ intr : Intr,
      (intr.model ≠ "SIMPLE_PINHOLE" → intr.model ≠ "PINHOLE" →
        fovDynerf intr = .error modelAssertMsg
        ∧ fovTech intr = .error modelAssertMsg
        ∧ (∀ (pE : String → Bool) (folder : String) (near far : ℚ)
            (startime duration : ℕ) (e : Extr), e.camera_id = intr.id →
          readColmapCamerasDynerf pE [e] [intr] folder near far startime duration
              = .error modelAssertMsg
            ∧ readColmapCamerasTechnicolor pE [e] [intr] folder near far startime duration
              = .error modelAssertMsg
            ∧ readColmapCamerasTechnicolorTestonly pE [e] [intr] folder near far
                startime duration = .error modelAssertMsg))
      ∧ (∀ (fx : ℚ) (rest : List ℚ), intr.model = "SIMPLE_PINHOLE" →
          intr.params = fx :: rest →
          fovDynerf intr = .ok (focal2fov ((fx : ℝ) / 2) ((intr.height : ℝ) / 2),
              focal2fov ((fx : ℝ) / 2) ((intr.width : ℝ) / 2))
            ∧ fovTech intr = .ok (focal2fov (fx : ℝ) (intr.height : ℝ),
              focal2fov (fx : ℝ) (intr.width : ℝ)))
      ∧ (∀ (fx fy : ℚ) (rest : List ℚ), intr.model = "PINHOLE" →
          intr.params = fx :: fy :: rest →
          fovDynerf intr = .ok (focal2fov ((fy : ℝ) / 2) ((intr.height : ℝ) / 2),
              focal2fov ((fx : ℝ) / 2) ((intr.width : ℝ) / 2))
            ∧ fovTech intr = .ok (focal2fov (fy : ℝ) (intr.height : ℝ),
              focal2fov (fx : ℝ) (intr.width : ℝ))) := by
  intro intr
  refine ⟨?_, ?_, ?_⟩
  · intro hm1 hm2
    have hfd : fovDynerf intr = .error modelAssertMsg := by
      unfold fovDynerf
      rw [if_neg hm1, if_neg hm2]
    have hft : fovTech intr = .error modelAssertMsg := by
      unfold fovTech
      rw [if_neg hm1, if_neg hm2]
    refine ⟨hfd, hft, ?_⟩
    intro pE folder near far startime duration e he
    have hlook : lookupIntr [intr] e = .ok intr := by
      simp [lookupIntr, List.find?, he]
    refine ⟨?_, ?_, ?_⟩
    · unfold readColmapCamerasDynerf
      rw [mapE_singleton, hlook]
      simp only
      unfold dynerfCamera
      rw [hfd]
    · unfold readColmapCamerasTechnicolor
      rw [mapE_singleton, hlook]
      simp only
      unfold techCamera
      rw [hft]
    · unfold readColmapCamerasTechnicolorTestonly
      rw [mapE_singleton, hlook]
      simp only
      unfold techCameraTestonly
      rw [hft]
  · intro fx rest hm hp
    constructor
    · unfold fovDynerf
      rw [if_pos hm]
      simp [pget, hp]
    · unfold fovTech
      rw [if_pos hm]
      simp [pget, hp]
  · intro fx fy rest hm hp
    have hm1 : intr.model ≠ "SIMPLE_PINHOLE" := by rw [hm]; decide
    constructor
    · unfold fovDynerf
      rw [if_neg hm1, if_pos hm]
      simp [pget, hp]
    · unfold fovTech
      rw [if_neg hm1, if_pos hm]
      simp [pget, hp]

/-- An intrinsics record with an unsupported (distorted) camera model. -/
def intrBad : Intr := ⟨2, "OPENCV", 4, 2, [1, 1, 2, 1]⟩

/-- An extrinsics record for the unsupported-model camera. -/
noncomputable def extrBad : Extr := ⟨2, "c.png", fun _ => 0, fun _ => 0⟩

/-- A SIMPLE_PINHOLE intrinsics record. -/
def intrS : Intr := ⟨3, "SIMPLE_PINHOLE", 4, 2, [1]⟩

/-- Witness for C7 at the concrete records `intrBad`, `intrS` and `intrA`. -/
theorem C7_intrinsics_models_witness :
    (intrBad.model ≠ "SIMPLE_PINHOLE" ∧ intrBad.model ≠ "PINHOLE"
      ∧ extrBad.camera_id = intrBad.id
      ∧ readColmapCamerasDynerf pEyes [extrBad] [intrBad] "p" (1/100) 100 0 3
          = .error modelAssertMsg
      ∧ readColmapCamerasTechnicolor pEyes [extrBad] [intrBad] "p" (1/100) 100 0 3
          = .error modelAssertMsg
      ∧ readColmapCamerasTechnicolorTestonly pEyes [extrBad] [intrBad] "p" (1/100) 100 0 3
          = .error modelAssertMsg)
    ∧ (intrS.model = "SIMPLE_PINHOLE" ∧ intrS.params = (1 : ℚ) :: []
      ∧ fovDynerf intrS = .ok (focal2fov (((1 : ℚ) : ℝ) / 2) ((intrS.height : ℝ) / 2),
          focal2fov (((1 : ℚ) : ℝ) / 2) ((intrS.width : ℝ) / 2)))
    ∧ (intrA.model = "PINHOLE" ∧ intrA.params = (1 : ℚ) :: (1 : ℚ) :: [2, 1]
      ∧ fovTech intrA = .ok (focal2fov (((1 : ℚ) : ℝ)) (intrA.height : ℝ),
          focal2fov (((1 : ℚ) : ℝ)) (intrA.width : ℝ))) := by
  have h1 := C7_intrinsics_models intrBad
  have h2 := C7_intrinsics_models intrS
  have h3 := C7_intrinsics_models intrA
  have hb1 : intrBad.model ≠ "SIMPLE_PINHOLE" := by decide
  have hb2 : intrBad.model ≠ "PINHOLE" := by decide
  obtain ⟨hd, ht, hto⟩ := (h1.1 hb1 hb2).2.2 pEyes "p" (1/100) 100 0 3 extrBad rfl
  refine ⟨⟨hb1, hb2, rfl, hd, ht, hto⟩, ⟨rfl, rfl, ?_⟩, ⟨rfl, rfl, ?_⟩⟩
  · exact (h2.2.1 1 [] rfl rfl).1
  · exact (h3.2.2 1 1 [2, 1] rfl rfl).2

/-! ### Claim C8: the field-of-view relation and the Dynerf halving -/

/-- C8: field of view is `2·atan(dim/(2·focal))`; the Dynerf intrinsics block
halves both focal length and dimension, which leaves the field of view equal
to the unhalved Technicolor computation; correspondingly the Dynerf reader
stores halved width/height and resizes the first frame's image to the halved
(truncated) resolution. -/
theorem C8_fov_halving :
    (∀ f d : ℝ, focal2fov f d = 2 * Real.arctan (d / (2 * f)))
    ∧ (∀ f d : ℝ, focal2fov (f / 2) (d / 2) = focal2fov f d)
    ∧ (∀ (intr : Intr) (fx fy : ℚ) (rest : List ℚ),
        intr.model = "PINHOLE" → intr.params = fx :: fy :: rest →
        fovDynerf intr = .ok (focal2fov ((fy : ℝ) / 2) ((intr.height : ℝ) / 2),
            focal2fov ((fx : ℝ) / 2) ((intr.width : ℝ) / 2))
          ∧ fovTech intr = .ok (focal2fov (fy : ℝ) (intr.height : ℝ),
            focal2fov (fx : ℝ) (intr.width : ℝ))
          ∧ fovDynerf intr = fovTech intr)
    ∧ (∀ (pE : String → Bool) (folder : String) (near far : ℚ)
        (startime duration : ℕ) (e : Extr) (intr : Intr) (FovY FovX : ℝ)
        (c : CameraInfo),
        dynerfFrame pE folder near far startime duration e intr FovY FovX
          ((intr.width : ℚ) / 2) ((intr.height : ℚ) / 2) startime = .ok c →
        c.width = (intr.width : ℚ) / 2 ∧ c.height = (intr.height : ℚ) / 2
          ∧ c.image = some (PImg.resized c.image_path (pyint ((intr.width : ℚ) / 2))
              (pyint ((intr.height : ℚ) / 2)))) := by
  have hhalf : ∀ f d : ℝ, focal2fov (f / 2) (d / 2) = focal2fov f d := by
    intro f d
    unfold focal2fov
    congr 1
    rw [show (2 : ℝ) * (f / 2) = f by ring, div_div]
  refine ⟨fun f d => rfl, hhalf, ?_, ?_⟩
  · intro intr fx fy rest hm hp
    have hm1 : intr.model ≠ "SIMPLE_PINHOLE" := by rw [hm]; decide
    have hd : fovDynerf intr = .ok (focal2fov ((fy : ℝ) / 2) ((intr.height : ℝ) / 2),
        focal2fov ((fx : ℝ) / 2) ((intr.width : ℝ) / 2)) := by
      unfold fovDynerf
      rw [if_neg hm1, if_pos hm]
      simp [pget, hp]
    have ht : fovTech intr = .ok (focal2fov (fy : ℝ) (intr.height : ℝ),
        focal2fov (fx : ℝ) (intr.width : ℝ)) := by
      unfold fovTech
      rw [if_neg hm1, if_pos hm]
      simp [pget, hp]
    refine ⟨hd, ht, ?_⟩
    rw [hd, ht, hhalf, hhalf]
  · intro pE folder near far startime duration e intr FovY FovX c hframe
    obtain ⟨-, -, -, hw, hh, himg⟩ := dynerfFrame_ok_fields hframe
    exact ⟨hw, hh, himg rfl⟩

/-- Witness for C8 at the concrete `intrA` record and a concrete first
frame. -/
theorem C8_fov_halving_witness :
    (focal2fov 1 2 = 2 * Real.arctan (2 / (2 * 1)))
    ∧ (focal2fov ((1 : ℝ) / 2) ((2 : ℝ) / 2) = focal2fov 1 2)
    ∧ (intrA.model = "PINHOLE" ∧ intrA.params = (1 : ℚ) :: (1 : ℚ) :: [2, 1]
        ∧ fovDynerf intrA = fovTech intrA)
    ∧ (∃ c, dynerfFrame pEyes "p" (1/100) 100 0 3 extrA intrA 0 0
        ((intrA.width : ℚ) / 2) ((intrA.height : ℚ) / 2) 0 = .ok c
      ∧ c.width = (intrA.width : ℚ) / 2 ∧ c.height = (intrA.height : ℚ) / 2
      ∧ c.image = some (PImg.resized c.image_path (pyint ((intrA.width : ℚ) / 2))
          (pyint ((intrA.height : ℚ) / 2)))) := by
  refine ⟨C8_fov_halving.1 1 2, C8_fov_halving.2.1 1 2,
    ⟨rfl, rfl, (C8_fov_halving.2.2.1 intrA 1 1 [2, 1] rfl rfl).2.2⟩, ?_⟩
  have h1 : (dynerfFrame pEyes "p" (1/100) 100 0 3 extrA intrA 0 0
      ((intrA.width : ℚ) / 2) ((intrA.height : ℚ) / 2) 0).isOk = true := by
    unfold dynerfFrame
    rw [if_pos (show pEyes (pyJoin ["p", "frames", pad4 0, extrA.name]) = true from rfl)]
    rfl
  cases hf : dynerfFrame pEyes "p" (1/100) 100 0 3 extrA intrA 0 0
      ((intrA.width : ℚ) / 2) ((intrA.height : ℚ) / 2) 0 with
  | error e => rw [hf] at h1; cases h1
  | ok c =>
    exact ⟨c, rfl,
      C8_fov_halving.2.2.2 pEyes "p" (1/100) 100 0 3 extrA intrA 0 0 c hf⟩

/-! ### Claim C3: timestamps, poses and image laziness -/

/-- C3 (amended): every CameraInfo of the three readers has timestamp
`(j - startime)/duration ∈ [0, 1]`, vanishing exactly at the first frame of
its camera's sequence, and `pose` is non-None exactly at the first frame; the
image clause holds per reader: the Dynerf reader carries an image exactly on
the first frame, the regular Technicolor reader opens an image on EVERY
frame, and the Technicolor testonly reader carries `image=None` on every
frame. -/
theorem C3_timestamps_amended :
    ∀ (pE : String → Bool) (ce : List Extr) (ci : List Intr) (folder : String)
      (near far : ℚ) (startime duration : ℕ) (l : List CameraInfo),
      (readColmapCamerasDynerf pE ce ci folder near far startime duration = .ok l →
        ∀ c ∈ l, ∃ j, startime ≤ j ∧ j < startime + duration
          ∧ c.timestamp = ((j : ℚ) - (startime : ℚ)) / (duration : ℚ)
          ∧ 0 ≤ c.timestamp ∧ c.timestamp ≤ 1
          ∧ (c.timestamp = 0 ↔ j = startime)
          ∧ (c.pose.isSome = true ↔ j = startime)
          ∧ (c.image.isSome = true ↔ j = startime))
      ∧ (readColmapCamerasTechnicolor pE ce ci folder near far startime duration = .ok l →
        ∀ c ∈ l, ∃ j, startime ≤ j ∧ j < startime + duration
          ∧ c.timestamp = ((j : ℚ) - (startime : ℚ)) / (duration : ℚ)
          ∧ 0 ≤ c.timestamp ∧ c.timestamp ≤ 1
          ∧ (c.timestamp = 0 ↔ j = startime)
          ∧ (c.pose.isSome = true ↔ j = startime)
          ∧ c.image = some (PImg.opened c.image_path))
      ∧ (readColmapCamerasTechnicolorTestonly pE ce ci folder near far startime duration
            = .ok l →
        ∀ c ∈ l, ∃ j, startime ≤ j ∧ j < startime + duration
          ∧ c.timestamp = ((j : ℚ) - (startime : ℚ)) / (duration : ℚ)
          ∧ 0 ≤ c.timestamp ∧ c.timestamp ≤ 1
          ∧ (c.timestamp = 0 ↔ j = startime)
          ∧ (c.pose.isSome = true ↔ j = startime)
          ∧ c.image = none) := by
  intro pE ce ci folder near far startime duration l
  refine ⟨?_, ?_, ?_⟩
  · intro h c hc
    obtain ⟨e, he, intr, hlook, FovY, FovX, j, hj1, hj2, hframe⟩ := dynerfReader_mem h hc
    obtain ⟨hts, hpose, himg, -, -, -⟩ := dynerfFrame_ok_fields hframe
    obtain ⟨h0, h1, hiff⟩ := timestamp_facts hj1 hj2
    exact ⟨j, hj1, hj2, hts, hts ▸ h0, hts ▸ h1, hts ▸ hiff, hpose, himg⟩
  · intro h c hc
    obtain ⟨e, he, intr, hlook, FovY, FovX, j, hj1, hj2, hframe⟩ := techReader_mem h hc
    obtain ⟨hts, hpose, himg⟩ := techFrame_ok_fields hframe
    obtain ⟨h0, h1, hiff⟩ := timestamp_facts hj1 hj2
    exact ⟨j, hj1, hj2, hts, hts ▸ h0, hts ▸ h1, hts ▸ hiff, hpose, himg⟩
  · intro h c hc
    obtain ⟨e, he, intr, hlook, FovY, FovX, j, hj1, hj2, hframe⟩ := techReaderTestonly_mem h hc
    obtain ⟨hts, hpose, himg⟩ := techFrameTestonly_ok_fields hframe
    obtain ⟨h0, h1, hiff⟩ := timestamp_facts hj1 hj2
    exact ⟨j, hj1, hj2, hts, hts ▸ h0, hts ▸ h1, hts ▸ hiff, hpose, himg⟩

/-- Counterexample to C3 as stated: a regular Technicolor run on a 1-camera,
2-frame layout produces a record with a nonzero timestamp (a "later" frame)
that still carries a non-None image, because that reader opens every frame's
image eagerly. -/
theorem C3_counterexample :
    ∃ l, readColmapCamerasTechnicolor pEyes [extrT0] [intrA] "p" (1/100) 100 0 2 = .ok l
      ∧ ∃ c ∈ l, c.timestamp ≠ 0 ∧ c.image ≠ none := by
  have h1 : (readColmapCamerasTechnicolor pEyes [extrT0] [intrA] "p" (1/100) 100 0 2).map
      (fun l => l.map (fun c => (c.pose.isSome, c.image.isSome)))
      = .ok [(true, true), (false, true)] := by decide
  cases hr : readColmapCamerasTechnicolor pEyes [extrT0] [intrA] "p" (1/100) 100 0 2 with
  | error e => rw [hr] at h1; cases h1
  | ok l =>
    rw [hr] at h1
    have hmap : l.map (fun c => (c.pose.isSome, c.image.isSome))
        = [(true, true), (false, true)] := Except.ok.inj h1
    have hlen : l.length = 2 := by
      have := congrArg List.length hmap
      simpa using this
    obtain ⟨c0, c1, rfl⟩ := List.length_eq_two.mp hlen
    simp only [List.map_cons, List.map_nil, List.cons.injEq, Prod.mk.injEq,
      and_true] at hmap
    obtain ⟨-, hpose, himg⟩ := hmap
    have hcm : c1 ∈ [c0, c1] := by simp
    refine ⟨[c0, c1], rfl, c1, hcm, ?_, ?_⟩
    · obtain ⟨e, he, intr, hlook, FovY, FovX, j, hj1, hj2, hframe⟩ := techReader_mem hr hcm
      obtain ⟨hts, hpiff, -⟩ := techFrame_ok_fields hframe
      obtain ⟨-, -, hiff⟩ := timestamp_facts hj1 hj2
      intro h0
      have hj : j = 0 := (hts ▸ hiff).mp h0
      have hcontra : c1.pose.isSome = true := hpiff.mpr hj
      rw [hpose] at hcontra
      cases hcontra
    · intro hnone
      rw [hnone] at himg
      cases himg

/-- Witness for C3's amended statement at concrete runs of all three
readers. -/
theorem C3_timestamps_amended_witness :
    ∃ l₁ l₂ l₃,
      readColmapCamerasDynerf pEyes [extrA] [intrA] "p" (1/100) 100 0 2 = .ok l₁
      ∧ (∀ c ∈ l₁, ∃ j : ℕ, 0 ≤ j ∧ j < 0 + 2
          ∧ c.timestamp = ((j : ℚ) - ((0 : ℕ) : ℚ)) / ((2 : ℕ) : ℚ)
          ∧ 0 ≤ c.timestamp ∧ c.timestamp ≤ 1
          ∧ (c.timestamp = 0 ↔ j = 0)
          ∧ (c.pose.isSome = true ↔ j = 0)
          ∧ (c.image.isSome = true ↔ j = 0))
      ∧ readColmapCamerasTechnicolor pEyes [extrT0] [intrA] "p" (1/100) 100 0 2 = .ok l₂
      ∧ (∀ c ∈ l₂, ∃ j : ℕ, 0 ≤ j ∧ j < 0 + 2
          ∧ c.timestamp = ((j : ℚ) - ((0 : ℕ) : ℚ)) / ((2 : ℕ) : ℚ)
          ∧ 0 ≤ c.timestamp ∧ c.timestamp ≤ 1
          ∧ (c.timestamp = 0 ↔ j = 0)
          ∧ (c.pose.isSome = true ↔ j = 0)
          ∧ c.image = some (PImg.opened c.image_path))
      ∧ readColmapCamerasTechnicolorTestonly pEyes [extrT10] [intrB] "p" (1/100) 100 0 2
          = .ok l₃
      ∧ (∀ c ∈ l₃, ∃ j : ℕ, 0 ≤ j ∧ j < 0 + 2
          ∧ c.timestamp = ((j : ℚ) - ((0 : ℕ) : ℚ)) / ((2 : ℕ) : ℚ)
          ∧ 0 ≤ c.timestamp ∧ c.timestamp ≤ 1
          ∧ (c.timestamp = 0 ↔ j = 0)
          ∧ (c.pose.isSome = true ↔ j = 0)
          ∧ c.image = none) := by
  have h1 : (readColmapCamerasDynerf pEyes [extrA] [intrA] "p" (1/100) 100 0 2).isOk
      = true := by decide
  have h2 : (readColmapCamerasTechnicolor pEyes [extrT0] [intrA] "p" (1/100) 100 0 2).isOk
      = true := by decide
  have h3 : (readColmapCamerasTechnicolorTestonly pEyes [extrT10] [intrB] "p"
      (1/100) 100 0 2).isOk = true := by decide
  cases hr1 : readColmapCamerasDynerf pEyes [extrA] [intrA] "p" (1/100) 100 0 2 with
  | error e => rw [hr1] at h1; cases h1
  | ok l₁ =>
    cases hr2 : readColmapCamerasTechnicolor pEyes [extrT0] [intrA] "p" (1/100) 100 0 2 with
    | error e => rw [hr2] at h2; cases h2
    | ok l₂ =>
      cases hr3 : readColmapCamerasTechnicolorTestonly pEyes [extrT10] [intrB] "p"
          (1/100) 100 0 2 with
      | error e => rw [hr3] at h3; cases h3
      | ok l₃ =>
        exact ⟨l₁, l₂, l₃, rfl,
          (C3_timestamps_amended pEyes [extrA] [intrA] "p" (1/100) 100 0 2 l₁).1 hr1,
          rfl,
          (C3_timestamps_amended pEyes [extrT0] [intrA] "p" (1/100) 100 0 2 l₂).2.1 hr2,
          rfl,
          (C3_timestamps_amended pEyes [extrT10] [intrB] "p" (1/100) 100 0 2 l₃).2.2 hr3⟩

/-! ### Claim C5: testonly image decoding (code bug) -/

/-- C5 (evaluation at the failing input): running the Technicolor testonly
reader on the held-out camera `cam10.png` itself, the first-frame record has
`image_name = "cam10/0000.png"` — which does contain `"cam10"` — yet carries
`image = None`: the reader's comparison `image_name == "cam10"` can never
hold, so no image is ever decoded, contradicting the claim that the held-out
camera's first frame is eagerly decoded. -/
theorem C5_code_eval :
    (readColmapCamerasTechnicolorTestonly pEyes [extrT10] [intrB] "p" (1/100) 100 0 1).map
      (fun l => l.map (fun c =>
        (c.image_name, pyIn "cam10" c.image_name, c.image.isSome, c.pose.isSome)))
      = .ok [("cam10/0000.png", true, false, true)] := by
  decide

/-! ### Claim C6: point-cloud failure handling -/

/-- A Hyper dataset object for witnesses. -/
def hyperD : HyperData := ⟨"train", 1/100, 100, 0, 1⟩

/-- C6: with a failing PLY loader the Dynerf and Technicolor assemblers still
succeed and merely drop the point cloud (`point_cloud = None`), leaving every
other field as with a working loader; in testonly mode they skip the load and
set `point_cloud = None` regardless of the loader; the Nerfies/Hyper assembler
has no guard and propagates the loader's failure. -/
theorem C6_pointcloud_error_handling :
    (∀ (pE : String → Bool) (fP fP' : String → Except String BasicPointCloud)
        (path : String) (ce : List Extr) (ci : List Intr) (duration : ℕ)
        (err : String) (s : SceneInfo (List CameraInfo)),
      readColmapSceneInfoDynerf pE fP path ce ci duration false = .ok s →
      fP' (pyJoin [path, "sparse/0/points3D.ply"]) = .error err →
      readColmapSceneInfoDynerf pE fP' path ce ci duration false
        = .ok { s with point_cloud := none })
    ∧ (∀ (pE : String → Bool) (fP fP' : String → Except String BasicPointCloud)
        (path : String) (ce : List Extr) (ci : List Intr) (duration : ℕ)
        (err : String) (s : SceneInfo (List CameraInfo)),
      readColmapSceneInfoTechnicolor pE fP path ce ci duration false = .ok s →
      fP' (pyJoin [path, "points3D_downsample.ply"]) = .error err →
      readColmapSceneInfoTechnicolor pE fP' path ce ci duration false
        = .ok { s with point_cloud := none })
    ∧ (∀ (pE : String → Bool) (fP : String → Except String BasicPointCloud)
        (path : String) (ce : List Extr) (ci : List Intr) (duration : ℕ)
        (s : SceneInfo (List CameraInfo)),
      readColmapSceneInfoDynerf pE fP path ce ci duration true = .ok s →
      s.point_cloud = none)
    ∧ (∀ (pE : String → Bool) (fP : String → Except String BasicPointCloud)
        (path : String) (ce : List Extr) (ci : List Intr) (duration : ℕ)
        (s : SceneInfo (List CameraInfo)),
      readColmapSceneInfoTechnicolor pE fP path ce ci duration true = .ok s →
      s.point_cloud = none)
    ∧ (∀ (load : String → HyperData)
        (fmt : HyperData → String → ℚ → ℚ → ℕ → ℕ → List CameraInfo)
        (fP : String → Except String BasicPointCloud) (datadir : String) (err : String),
      fmt (load "train") "train" (load "train").near (load "train").far
        (load "train").startime (load "train").duration ≠ [] →
      fP (pyJoin [datadir, "points3D_downsample.ply"]) = .error err →
      readHyperDataInfos load fmt fP datadir = .error err) := by
  refine ⟨?_, ?_, ?_, ?_, ?_⟩
  · intro pE fP fP' path ce ci duration err s hs hferr
    obtain ⟨l, nn, hr, hn, rfl⟩ := dynerf_scene_ok_elim hs
    have := @dynerf_scene_ok_intro pE fP' path ce ci duration false l nn hr hn
    rw [this]
    have hpcd : pcdOf fP' (pyJoin [path, "sparse/0/points3D.ply"]) false = none := by
      unfold pcdOf
      rw [if_neg (by simp), hferr]
    rw [hpcd]
  · intro pE fP fP' path ce ci duration err s hs hferr
    obtain ⟨l, nn, hr, h1, h2, hn, rfl⟩ := tech_scene_ok_elim hs
    have := @tech_scene_ok_intro pE fP' path ce ci duration false l nn hr h1 h2 hn
    rw [this]
    have hpcd : pcdOf fP' (pyJoin [path, "points3D_downsample.ply"]) false = none := by
      unfold pcdOf
      rw [if_neg (by simp), hferr]
    rw [hpcd]
  · intro pE fP path ce ci duration s hs
    obtain ⟨l, nn, hr, hn, rfl⟩ := dynerf_scene_ok_elim hs
    show pcdOf fP (pyJoin [path, "sparse/0/points3D.ply"]) true = none
    unfold pcdOf
    rw [if_pos rfl]
  · intro pE fP path ce ci duration s hs
    obtain ⟨l, nn, hr, h1, h2, hn, rfl⟩ := tech_scene_ok_elim hs
    show pcdOf fP (pyJoin [path, "points3D_downsample.ply"]) true = none
    unfold pcdOf
    rw [if_pos rfl]
  · intro load fmt fP datadir err hne hferr
    unfold readHyperDataInfos
    dsimp only
    obtain ⟨nn, hnn⟩ := getNerfppNorm_ne_nil hne
    rw [hnn]
    simp only
    rw [hferr]

/-- Witness for C6 at concrete Dynerf/Technicolor/Hyper runs with a failing
PLY loader. -/
theorem C6_pointcloud_error_handling_witness :
    ∃ sd st sdt stt,
      readColmapSceneInfoDynerf pEyes fpOk "p" [extrB, extrA] [intrA, intrB] 3 false = .ok sd
      ∧ fpFail (pyJoin ["p", "sparse/0/points3D.ply"]) = .error "No such file"
      ∧ readColmapSceneInfoDynerf pEyes fpFail "p" [extrB, extrA] [intrA, intrB] 3 false
          = .ok { sd with point_cloud := none }
      ∧ readColmapSceneInfoTechnicolor pEyes fpOk "p" [extrT0, extrT10] [intrA, intrB] 1 false
          = .ok st
      ∧ readColmapSceneInfoTechnicolor pEyes fpFail "p" [extrT0, extrT10] [intrA, intrB] 1 false
          = .ok { st with point_cloud := none }
      ∧ readColmapSceneInfoDynerf pEyes fpOk "p" [extrB, extrA] [intrA, intrB] 3 true = .ok sdt
      ∧ sdt.point_cloud = none
      ∧ readColmapSceneInfoTechnicolor pEyes fpOk "p" [extrT0, extrT10] [intrA, intrB] 1 true
          = .ok stt
      ∧ stt.point_cloud = none
      ∧ ((fun _ : HyperData => [camOne]) hyperD ≠ ([] : List CameraInfo))
      ∧ readHyperDataInfos (fun _ => hyperD) (fun _ _ _ _ _ _ => [camOne]) fpFail "d"
          = .error "No such file" := by
  have h1 : (readColmapSceneInfoDynerf pEyes fpOk "p" [extrB, extrA] [intrA, intrB]
      3 false).isOk = true := by decide
  have h2 : (readColmapSceneInfoTechnicolor pEyes fpOk "p" [extrT0, extrT10] [intrA, intrB]
      1 false).isOk = true := by decide
  have h3 : (readColmapSceneInfoDynerf pEyes fpOk "p" [extrB, extrA] [intrA, intrB]
      3 true).isOk = true := by decide
  have h4 : (readColmapSceneInfoTechnicolor pEyes fpOk "p" [extrT0, extrT10] [intrA, intrB]
      1 true).isOk = true := by decide
  cases hd : readColmapSceneInfoDynerf pEyes fpOk "p" [extrB, extrA] [intrA, intrB]
      3 false with
  | error e => rw [hd] at h1; cases h1
  | ok sd =>
  cases ht : readColmapSceneInfoTechnicolor pEyes fpOk "p" [extrT0, extrT10] [intrA, intrB]
      1 false with
  | error e => rw [ht] at h2; cases h2
  | ok st =>
  cases hdt : readColmapSceneInfoDynerf pEyes fpOk "p" [extrB, extrA] [intrA, intrB]
      3 true with
  | error e => rw [hdt] at h3; cases h3
  | ok sdt =>
  cases htt : readColmapSceneInfoTechnicolor pEyes fpOk "p" [extrT0, extrT10] [intrA, intrB]
      1 true with
  | error e => rw [htt] at h4; cases h4
  | ok stt =>
  refine ⟨sd, st, sdt, stt, rfl, rfl,
    C6_pointcloud_error_handling.1 pEyes fpOk fpFail "p" [extrB, extrA] [intrA, intrB]
      3 "No such file" sd hd rfl,
    rfl,
    C6_pointcloud_error_handling.2.1 pEyes fpOk fpFail "p" [extrT0, extrT10] [intrA, intrB]
      1 "No such file" st ht rfl,
    rfl,
    C6_pointcloud_error_handling.2.2.1 pEyes fpOk "p" [extrB, extrA] [intrA, intrB]
      3 sdt hdt,
    rfl,
    C6_pointcloud_error_handling.2.2.2.1 pEyes fpOk "p" [extrT0, extrT10] [intrA, intrB]
      1 stt htt,
    by simp,
    C6_pointcloud_error_handling.2.2.2.2 (fun _ => hyperD) (fun _ _ _ _ _ _ => [camOne])
      fpFail "d" "No such file" (by simp) rfl⟩

end EDDGS
